import Mathlib

/-!
# AAC Sentence Builder: the trial session of `app.js`

A shallow embedding of the session logic of `src/app.js` (objects `CONFIG`,
`GameState`, `Game`, `UI`) and of the catalog in `src/trials-data.js`.

* The mutable singletons become one explicit `World` value: the `GameState`
  object, the part of the page the handlers write to (`DOM`), and the
  `localStorage` slot under `CONFIG.STORAGE_KEY`.
* A handler that can end in an uncaught exception returns a `Result`, which
  keeps the state reached when the exception left the handler.
* `Date.now()` and the answer to `confirm(...)` are arguments.
* JavaScript numbers: indices, scores and timestamps are integers far below
  2^53, where binary64 arithmetic is exact; the one computation that leaves
  the integers, the percentage of `showResults`, is carried out in binary64
  by `Float64.round`.
* Audio, speech, image preloading and drag-and-drop gestures are not
  modelled; the items found in the drop zone are an argument of
  `Game.checkAnswer`.
-/

namespace AAC

/-! ## Constants and catalog -/

/-- The integer entries of `CONFIG` (app.js 9-17). -/
structure Config where
  TOTAL_TRIALS : Nat
  HIGH_SCORE_THRESHOLD : Nat
  CELEBRATION_DURATION : Nat
  AUDIO_FADE_DURATION : Nat
deriving DecidableEq, Repr

/-- The shipped `CONFIG`. -/
def CONFIG : Config :=
  { TOTAL_TRIALS := 10, HIGH_SCORE_THRESHOLD := 8,
    CELEBRATION_DURATION := 5000, AUDIO_FADE_DURATION := 1000 }

/-- One entry of `TRIALS_DATA` (trials-data.js). -/
structure Trial where
  gif : String
  correctWho : String
  whoImg : String
  correctDoing : String
  doingImg : String
  distWho : String
  distWhoImg : String
  distDoing : String
  distDoingImg : String
deriving DecidableEq, Repr, Inhabited

/-- The shipped catalog (trials-data.js 4-115). -/
def TRIALS_DATA : List Trial :=
  [ { gif := "images/dog_smelling.gif", correctWho := "The dog", whoImg := "symbols/dog.png",
      correctDoing := "is smelling", doingImg := "symbols/smell.png",
      distWho := "The cat", distWhoImg := "symbols/cat.png",
      distDoing := "is sleeping", distDoingImg := "symbols/sleep.png" },
    { gif := "images/girl_running.gif", correctWho := "The girl", whoImg := "symbols/girl.png",
      correctDoing := "is running", doingImg := "symbols/run.png",
      distWho := "The boy", distWhoImg := "symbols/boy.png",
      distDoing := "is eating", distDoingImg := "symbols/eat.png" },
    { gif := "images/cat_jumping.gif", correctWho := "The cat", whoImg := "symbols/cat.png",
      correctDoing := "is jumping", doingImg := "symbols/jump.png",
      distWho := "The bird", distWhoImg := "symbols/bird.png",
      distDoing := "is flying", distDoingImg := "symbols/fly.png" },
    { gif := "images/boy_eating.gif", correctWho := "The boy", whoImg := "symbols/boy.png",
      correctDoing := "is eating", doingImg := "symbols/eat.png",
      distWho := "The teacher", distWhoImg := "symbols/teacher.png",
      distDoing := "is writing", distDoingImg := "symbols/write.png" },
    { gif := "images/baby_crying.gif", correctWho := "The baby", whoImg := "symbols/baby.png",
      correctDoing := "is crying", doingImg := "symbols/cry.png",
      distWho := "The man", distWhoImg := "symbols/man.png",
      distDoing := "is washing", distDoingImg := "symbols/wash.png" },
    { gif := "images/bird_flying.gif", correctWho := "The bird", whoImg := "symbols/bird.png",
      correctDoing := "is flying", doingImg := "symbols/fly.png",
      distWho := "The dog", distWhoImg := "symbols/dog.png",
      distDoing := "is talking", distDoingImg := "symbols/talk.png" },
    { gif := "images/fish_looking.gif", correctWho := "The fish", whoImg := "symbols/fish.png",
      correctDoing := "is looking", doingImg := "symbols/look.png",
      distWho := "The octopus", distWhoImg := "symbols/octopus.png",
      distDoing := "is dancing", distDoingImg := "symbols/dance.png" },
    { gif := "images/man_cutting.gif", correctWho := "The man", whoImg := "symbols/man.png",
      correctDoing := "is cutting", doingImg := "symbols/cut.png",
      distWho := "The woman", distWhoImg := "symbols/woman.png",
      distDoing := "is holding", distDoingImg := "symbols/hold.png" },
    { gif := "images/man_washing.gif", correctWho := "The man", whoImg := "symbols/man.png",
      correctDoing := "is washing", doingImg := "symbols/wash.png",
      distWho := "The baby", distWhoImg := "symbols/baby.png",
      distDoing := "is crying", distDoingImg := "symbols/cry.png" },
    { gif := "images/girl_reading.gif", correctWho := "The girl", whoImg := "symbols/girl.png",
      correctDoing := "is reading", doingImg := "symbols/read.png",
      distWho := "The cat", distWhoImg := "symbols/cat.png",
      distDoing := "is flying", distDoingImg := "symbols/fly.png" } ]

/-! ## Session state -/

/-- An entry pushed on `GameState.trialLog` by `checkAnswer` (app.js 453-458). -/
structure Outcome where
  trialNum : Nat
  sentence : String
  userAnswer : String
  status : String
deriving DecidableEq, Repr

/-- The `GameState` object (app.js 22-26). -/
structure GameState where
  currentIndex : Nat
  score : Nat
  trialLog : List Outcome
  isMuted : Bool
deriving DecidableEq, Repr

/-- The object literal the script evaluates when the page loads (app.js 23-26). -/
def GameState.initial : GameState :=
  { currentIndex := 0, score := 0, trialLog := [], isMuted := false }

/-- A symbol lying in the drop zone: its `dataset.type` and `dataset.text`
(written by `buildWordBank`, app.js 398-399). -/
structure Item where
  type : String
  text : String
deriving DecidableEq, Repr

/-! ## Persistence: the `localStorage` slot -/

/-- The record `saveProgress` serialises (app.js 36-41). -/
structure Progress where
  currentIndex : Nat
  score : Nat
  trialLog : List Outcome
  timestamp : Int
deriving DecidableEq, Repr

/-- What `JSON.parse` returns for a stored text, as far as `loadProgress`
looks at it: `null`; a value whose `timestamp` is missing or not a number, so
that `Date.now() - progress.timestamp` is NaN; or an object carrying the
fields `saveProgress` writes. -/
inductive JsonValue where
  | null
  | noTimestamp
  | snapshot (p : Progress)
deriving DecidableEq, Repr

/-- A text held under `CONFIG.STORAGE_KEY`, by what the script can tell of it:
the empty string (falsy), a non-empty text `JSON.parse` rejects with a
SyntaxError, or a non-empty text `JSON.parse` reads as a value. The text
`JSON.stringify` produces for a progress record reads back as that record. -/
inductive StoredText where
  | empty
  | malformed
  | json (v : JsonValue)
deriving DecidableEq, Repr

/-- Exceptions the modelled code can meet. -/
inductive Exn where
  | TypeError
  | SyntaxError
  | SecurityError
  | QuotaExceededError
deriving DecidableEq, Repr

/-- The browser store: the item under the key (`none`: `getItem` gives
`null`), whether reading `window.localStorage` is refused (every access then
throws SecurityError), and whether the quota is used up (`setItem` then
throws QuotaExceededError). -/
structure LocalStorage where
  item : Option StoredText
  accessDenied : Bool
  quotaExceeded : Bool
deriving DecidableEq, Repr

/-- `localStorage.getItem(CONFIG.STORAGE_KEY)`. -/
def LocalStorage.getItem (ls : LocalStorage) : Except Exn (Option StoredText) :=
  if ls.accessDenied then .error Exn.SecurityError else .ok ls.item

/-- `localStorage.setItem(CONFIG.STORAGE_KEY, text)`. -/
def LocalStorage.setItem (ls : LocalStorage) (text : StoredText) : Except Exn LocalStorage :=
  if ls.accessDenied then .error Exn.SecurityError
  else if ls.quotaExceeded then .error Exn.QuotaExceededError
  else .ok { ls with item := some text }

/-- `localStorage.removeItem(CONFIG.STORAGE_KEY)`. -/
def LocalStorage.removeItem (ls : LocalStorage) : Except Exn LocalStorage :=
  if ls.accessDenied then .error Exn.SecurityError
  else .ok { ls with item := none }

/-! ## The page -/

/-- The parts of the document the session handlers write (app.js `DOM`). Text
contents that show a number hold the number. `finalPct` is `none` while
untouched, `some none` when `toFixed` printed NaN or Infinity, `some (some n)`
for the text n followed by a percent sign. -/
structure DOM where
  currentTrialSpan : Nat
  totalTrialsSpan : Nat
  scoreSpan : Nat
  feedbackText : String
  feedbackClass : String
  checkBtnHidden : Bool
  nextBtnHidden : Bool
  nextBtnText : String
  volumeBtnText : String
  gameContainerHidden : Bool
  resultScreenHidden : Bool
  finalPct : Option (Option Nat)
  logBody : List (Nat × String × String)
  celebrationActive : Bool
deriving DecidableEq, Repr

/-- Everything a handler can read or write. -/
structure World where
  gs : GameState
  dom : DOM
  storage : LocalStorage
deriving DecidableEq, Repr

/-- How a handler ends: it returns, or an exception leaves it; either way
`state` is what it has done to the world. -/
inductive Result where
  | returned (state : World)
  | threw (e : Exn) (state : World)
deriving DecidableEq, Repr

/-- The world a handler leaves behind. -/
def Result.state : Result → World
  | .returned w => w
  | .threw _ w => w

/-- Whether the handler ended in an uncaught exception. -/
def Result.failed : Result → Bool
  | .returned _ => false
  | .threw _ _ => true

/-! ## Binary64 arithmetic for the percentage -/

namespace Float64

/-- Auxiliary for `log2`: halve until below 2, at most `fuel` times. -/
def log2Aux : Nat → Nat → Nat
  | 0, _ => 0
  | fuel + 1, n => if n < 2 then 0 else log2Aux fuel (n / 2) + 1

/-- Position of the leading binary digit of `n` (0 for `n < 2`). -/
def log2 (n : Nat) : Nat := log2Aux n n

/-- The binary64 value nearest to the fraction `num / den` (`den > 0`), ties
to even, returned as an exact fraction with a power of two below or above
the line. The fraction is scaled by a power of two so that its integer part
has 53 binary digits, the integer part is rounded on the remainder, and the
scaling is undone. Exponent range is not limited: the quotients met by the
percentage lie between 2^-1022 and 2^1024. -/
def round (num den : Nat) : Nat × Nat :=
  if num = 0 then (0, 1) else
  let a := log2 num
  let b := log2 den
  let up0 := (b + 52) - a
  let down0 := a - (b + 52)
  let small : Bool := (num * 2 ^ up0) / (den * 2 ^ down0) < 2 ^ 52
  let up := if small then (b + 53) - a else up0
  let down := if small then a - (b + 53) else down0
  let n := num * 2 ^ up
  let d := den * 2 ^ down
  let q := n / d
  let r := n % d
  let m := if d < 2 * r ∨ (2 * r = d ∧ q % 2 = 1) then q + 1 else q
  (m * 2 ^ down, 2 ^ up)

/-- The JavaScript quotient `a / b` of two integers, `b > 0`. -/
def div (a b : Nat) : Nat × Nat := round a b

/-- The JavaScript product `x * k` of a binary64 value and an integer. -/
def mul (x : Nat × Nat) (k : Nat) : Nat × Nat := round (x.1 * k) x.2

/-- The integer printed by `x.toFixed(0)`: the integer nearest to the exact
value of `x`, the larger one on a tie. -/
def toFixed0 (x : Nat × Nat) : Nat := (2 * x.1 + x.2) / (2 * x.2)

end Float64

/-- The number printed by `(score / total * 100).toFixed(0)` (app.js 513);
`none` when `total` is 0 and the text is NaN or Infinity. -/
def percentage (score total : Nat) : Option Nat :=
  if total = 0 then none
  else some (Float64.toFixed0 (Float64.mul (Float64.div score total) 100))

/-- Mathematical rounding of `num / den` to the nearest integer, halves up. -/
def roundHalfUp (num den : Nat) : Nat := (2 * num + den) / (2 * den)

/-! ## GameState methods -/

/-- `GameState.reset` (app.js 28-32). -/
def GameState.reset (gs : GameState) : GameState :=
  { gs with currentIndex := 0, score := 0, trialLog := [] }

/-- The `try` block of `saveProgress` (app.js 36-42). -/
def GameState.saveProgressTry (now : Int) (gs : GameState) (ls : LocalStorage) :
    Except Exn LocalStorage :=
  ls.setItem (.json (.snapshot
    { currentIndex := gs.currentIndex, score := gs.score,
      trialLog := gs.trialLog, timestamp := now }))

/-- `GameState.saveProgress` (app.js 34-46): the `catch` only warns. -/
def GameState.saveProgress (now : Int) (gs : GameState) (ls : LocalStorage) :
    Except Exn LocalStorage :=
  match GameState.saveProgressTry now gs ls with
  | .ok ls1 => .ok ls1
  | .error _ => .ok ls

/-- The `try` block of `loadProgress` (app.js 50-57). A `null` or empty text
is falsy; `JSON.parse` throws on malformed text; reading `.timestamp` of
`null` throws; a NaN age fails the comparison. -/
def GameState.loadProgressTry (now : Int) (ls : LocalStorage) :
    Except Exn (Option Progress) :=
  match ls.getItem with
  | .error e => .error e
  | .ok none => .ok none
  | .ok (some .empty) => .ok none
  | .ok (some .malformed) => .error Exn.SyntaxError
  | .ok (some (.json .null)) => .error Exn.TypeError
  | .ok (some (.json .noTimestamp)) => .ok none
  | .ok (some (.json (.snapshot p))) =>
      if now - p.timestamp < 3600000 then .ok (some p) else .ok none

/-- `GameState.loadProgress` (app.js 48-62): after the `catch`, and when the
`try` block falls through, it returns `null`. -/
def GameState.loadProgress (now : Int) (ls : LocalStorage) :
    Except Exn (Option Progress) :=
  match GameState.loadProgressTry now ls with
  | .ok r => .ok r
  | .error _ => .ok none

/-- `GameState.clearProgress` (app.js 64-66). -/
def GameState.clearProgress (ls : LocalStorage) : Except Exn LocalStorage :=
  ls.removeItem

/-- `AudioManager.toggleMute` (app.js 216-227), without the audio. -/
def AudioManager.toggleMute (w : World) : World :=
  let m := !w.gs.isMuted
  { w with
    gs := { w.gs with isMuted := m },
    dom := { w.dom with volumeBtnText := if m then "🔇" else "🔊" } }

/-! ## Game -/

/-- The part of `Game.loadTrial` that runs before its first `await`
(app.js 337-357): counters, cleared feedback, Check shown, Next hidden. The
progress bar width is presentation and left out; what follows the `await`
(the GIF, the look-ahead, the word bank) is `Game.loadTrialRest`. -/
def Game.loadTrial (cfg : Config) (w : World) : World :=
  { w with
    dom := { w.dom with
      currentTrialSpan := w.gs.currentIndex + 1,
      totalTrialsSpan := cfg.TOTAL_TRIALS,
      feedbackText := "",
      feedbackClass := "",
      checkBtnHidden := false,
      nextBtnHidden := true,
      nextBtnText := "Next Trial →" } }

/-- What the remainder of `Game.loadTrial` leaves on the page: the `src` of the
trial GIF, the look-ahead (`none` when the guard kept it from being made,
otherwise what `TRIALS_DATA[i + 1]` gave), and the symbols of the word bank
with their images, before the shuffle. -/
structure TrialView where
  gif : String
  lookAhead : Option (Option Trial)
  wordBank : List (Item × String)
deriving DecidableEq, Repr

/-- The catalog reads of `Game.loadTrial` and what follows its `await`
(app.js 337 and 360-375). `index` is `GameState.currentIndex` at the call,
where `TRIALS_DATA[index]` is bound to `trial`; with no trial there,
`preloadTrialAssets(trial)` rejects on `trial.gif` and the rest is not run.
`indexLater` is `GameState.currentIndex` as read again after the `await`, in
the guard and in the look-ahead `TRIALS_DATA[indexLater + 1]`. -/
def Game.loadTrialRest (cfg : Config) (trials : List Trial) (index indexLater : Nat) :
    Except Exn TrialView :=
  match trials[index]? with
  | none => .error Exn.TypeError
  | some trial =>
    .ok { gif := trial.gif,
          lookAhead :=
            if indexLater + 1 < cfg.TOTAL_TRIALS then some (trials[indexLater + 1]?) else none,
          wordBank :=
            [ ({ type := "who", text := trial.correctWho }, trial.whoImg),
              ({ type := "doing", text := trial.correctDoing }, trial.doingImg),
              ({ type := "who", text := trial.distWho }, trial.distWhoImg),
              ({ type := "doing", text := trial.distDoing }, trial.distDoingImg) ] }

/-- The expression bound to `isCorrect` (app.js 442-446) for the first two
placed items. -/
def Game.isCorrect (trial : Trial) (p0 p1 : Item) : Bool :=
  decide (p0.type = "who") && decide (p1.type = "doing") &&
  decide (p0.text = trial.correctWho) && decide (p1.text = trial.correctDoing)

/-- The record pushed on the log (app.js 449-458). -/
def Game.outcome (index : Nat) (trial : Trial) (p0 p1 : Item) : Outcome :=
  { trialNum := index + 1,
    sentence := trial.correctWho ++ " " ++ trial.correctDoing,
    userAnswer := p0.text ++ " " ++ p1.text,
    status := if Game.isCorrect trial p0 p1 then "Pass" else "Fail" }

/-- `Game.checkAnswer` (app.js 430-488); `placed` is
`Array.from(DOM.dropZone.children)` and `now` is what `Date.now()` returns
inside `saveProgress`. With fewer than two items only the feedback changes.
With two or more and no trial at the current index (`TRIALS_DATA[i]` is
`undefined`) reading `trial.correctWho` throws before anything is written.
The test `currentIndex === TOTAL_TRIALS - 1` is written `currentIndex + 1 =
TOTAL_TRIALS`, which is the same over the integers and avoids the truncated
subtraction of `Nat`. -/
def Game.checkAnswer (cfg : Config) (trials : List Trial) (placed : List Item) (now : Int)
    (w : World) : Result :=
  match placed with
  | p0 :: p1 :: _ =>
    match trials[w.gs.currentIndex]? with
    | none => .threw Exn.TypeError w
    | some trial =>
      let isCorrect := Game.isCorrect trial p0 p1
      let gs1 : GameState :=
        { w.gs with trialLog := w.gs.trialLog ++ [Game.outcome w.gs.currentIndex trial p0 p1] }
      let gs2 : GameState := if isCorrect then { gs1 with score := gs1.score + 1 } else gs1
      let dom1 : DOM :=
        if isCorrect then
          { w.dom with feedbackText := "✔ Correct!", feedbackClass := "correct",
                       scoreSpan := gs2.score }
        else
          { w.dom with feedbackText := "✘ Incorrect - Try again next time!",
                       feedbackClass := "incorrect" }
      let dom2 : DOM := { dom1 with checkBtnHidden := true, nextBtnHidden := false }
      let dom3 : DOM :=
        if gs2.currentIndex + 1 = cfg.TOTAL_TRIALS then { dom2 with nextBtnText := "See Results!" }
        else dom2
      match GameState.saveProgress now gs2 w.storage with
      | .ok st => .returned { gs := gs2, dom := dom3, storage := st }
      | .error e => .threw e { gs := gs2, dom := dom3, storage := w.storage }
  | _ =>
    .returned { w with
      dom := { w.dom with
        feedbackText := "Please drag both words to the sentence area!",
        feedbackClass := "" } }

/-- `Game.showResults` with `showCelebration` (app.js 504-545), without the
audio and the timer that takes the overlay away again. An exception from
`clearProgress` leaves the function before anything is shown. -/
def Game.showResults (cfg : Config) (w : World) : Result :=
  match GameState.clearProgress w.storage with
  | .error e => .threw e w
  | .ok st =>
    .returned { w with
      storage := st,
      dom := { w.dom with
        gameContainerHidden := true,
        resultScreenHidden := false,
        finalPct := some (percentage w.gs.score cfg.TOTAL_TRIALS),
        logBody := w.gs.trialLog.map (fun o => (o.trialNum, o.sentence, o.status)),
        celebrationActive :=
          if cfg.HIGH_SCORE_THRESHOLD ≤ w.gs.score then true else w.dom.celebrationActive } }

/-- `Game.nextTrial` (app.js 490-502). -/
def Game.nextTrial (cfg : Config) (w : World) : Result :=
  let w1 : World := { w with gs := { w.gs with currentIndex := w.gs.currentIndex + 1 } }
  if w1.gs.currentIndex < cfg.TOTAL_TRIALS then .returned (Game.loadTrial cfg w1)
  else Game.showResults cfg w1

/-! ## UI -/

/-- A page load: the script is evaluated anew, so `GameState` is its object
literal again and the document is the shipped `html`; only the store
survives. -/
def Location.reload (html : DOM) (w : World) : World :=
  { gs := GameState.initial, dom := html, storage := w.storage }

/-- `UI.startApp` from the saved-progress check on (app.js 567-577);
`confirmAnswer` is what the user answers to `confirm(...)`, asked only when a
snapshot was loaded. -/
def UI.startApp (cfg : Config) (confirmAnswer : Bool) (now : Int) (w : World) : Result :=
  match GameState.loadProgress now w.storage with
  | .error e => .threw e w
  | .ok none => .returned (Game.loadTrial cfg w)
  | .ok (some saved) =>
    if confirmAnswer then
      .returned (Game.loadTrial cfg
        { w with
          gs := { w.gs with currentIndex := saved.currentIndex, score := saved.score,
                            trialLog := saved.trialLog },
          dom := { w.dom with scoreSpan := saved.score } })
    else .returned (Game.loadTrial cfg w)

/-- `UI.restart` (app.js 590-594): reset, clear, then `location.reload()`,
which is not reached when `clearProgress` throws. -/
def UI.restart (html : DOM) (w : World) : Result :=
  let w1 : World := { w with gs := w.gs.reset }
  match GameState.clearProgress w1.storage with
  | .error e => .threw e w1
  | .ok st => .returned (Location.reload html { w1 with storage := st })

/-! ## Events -/

/-- The two clicks that drive a session (listeners at app.js 604-605). -/
inductive Event where
  | submit (placed : List Item) (now : Int)
  | advance
deriving DecidableEq, Repr

/-- Delivering a click. A button carrying the class `hidden` (put on and
taken off at app.js 351-352 and 478-479) is not rendered, so its listener
does not run; an exception leaving a listener is reported by the browser and
the page goes on with the state reached. -/
def Event.fire (cfg : Config) (trials : List Trial) (w : World) : Event → World
  | .submit placed now =>
      if w.dom.checkBtnHidden then w else (Game.checkAnswer cfg trials placed now w).state
  | .advance =>
      if w.dom.nextBtnHidden then w else (Game.nextTrial cfg w).state

/-- The state after a sequence of clicks. -/
def run (cfg : Config) (trials : List Trial) (w : World) (es : List Event) : World :=
  es.foldl (Event.fire cfg trials) w

/-- Number of log entries with status "Pass". -/
def passCount (log : List Outcome) : Nat :=
  (log.filter (fun o => decide (o.status = "Pass"))).length

/-! ## Sample values -/

/-- A document no handler has written to yet (both buttons rendered). -/
def blankDOM : DOM :=
  { currentTrialSpan := 1, totalTrialsSpan := 10, scoreSpan := 0,
    feedbackText := "", feedbackClass := "",
    checkBtnHidden := false, nextBtnHidden := true, nextBtnText := "Next Trial →",
    volumeBtnText := "🔊", gameContainerHidden := false, resultScreenHidden := true,
    finalPct := none, logBody := [], celebrationActive := false }

/-- A working store holding nothing. -/
def emptyStore : LocalStorage :=
  { item := none, accessDenied := false, quotaExceeded := false }

/-- A freshly loaded page over an empty store. -/
def freshPage : World :=
  { gs := GameState.initial, dom := blankDOM, storage := emptyStore }

/-- The right answer to a trial, as the two symbols of the word bank. -/
def Trial.rightAnswer (t : Trial) : List Item :=
  [{ type := "who", text := t.correctWho }, { type := "doing", text := t.correctDoing }]

/-- A wrong answer to a trial: the two distractors. -/
def Trial.wrongAnswer (t : Trial) : List Item :=
  [{ type := "who", text := t.distWho }, { type := "doing", text := t.distDoing }]

/-! ## Vocabulary of the statements -/

/-- The store after `saveProgress`, which never throws. -/
def savedStore (now : Int) (gs : GameState) (ls : LocalStorage) : LocalStorage :=
  if ls.accessDenied = true ∨ ls.quotaExceeded = true then ls
  else { ls with item := some (.json (.snapshot
          { currentIndex := gs.currentIndex, score := gs.score,
            trialLog := gs.trialLog, timestamp := now })) }

/-- The `GameState` after a judged submission. -/
def judgedState (gs : GameState) (trial : Trial) (p0 p1 : Item) : GameState :=
  { gs with
    trialLog := gs.trialLog ++ [Game.outcome gs.currentIndex trial p0 p1],
    score := if Game.isCorrect trial p0 p1 then gs.score + 1 else gs.score }

/-- The `checkAnswer` calls with at least two placed items made along a run
of clicks, in order: for each the index at the call and the first two items. -/
def calls (cfg : Config) (trials : List Trial) : World → List Event → List (Nat × Item × Item)
  | _, [] => []
  | w, e :: es =>
    (match e with
      | .submit (p0 :: p1 :: _) _ =>
          if w.dom.checkBtnHidden then [] else [(w.gs.currentIndex, p0, p1)]
      | _ => []) ++ calls cfg trials (Event.fire cfg trials w e) es

/-- The outcome `checkAnswer` computes for such a call, when the catalog has
a trial at the index. -/
def callOutcome (trials : List Trial) (c : Nat × Item × Item) : Option Outcome :=
  (trials[c.1]?).map (fun t => Game.outcome c.1 t c.2.1 c.2.2)

/-- Check is offered only with Next hidden and a trial still to judge. -/
def Coherent (cfg : Config) (w : World) : Prop :=
  w.dom.checkBtnHidden = false →
    w.dom.nextBtnHidden = true ∧ w.gs.currentIndex < cfg.TOTAL_TRIALS

/-- The bookkeeping invariant of a session started fresh. -/
def Inv (cfg : Config) (w : World) : Prop :=
  w.gs.score = passCount w.gs.trialLog ∧
  w.gs.trialLog.length ≤ cfg.TOTAL_TRIALS ∧
  w.gs.trialLog.length ≤ w.gs.currentIndex + 1 ∧
  (w.dom.checkBtnHidden = false →
    w.dom.nextBtnHidden = true ∧ w.gs.trialLog.length ≤ w.gs.currentIndex ∧
      w.gs.currentIndex < cfg.TOTAL_TRIALS)

/-- The clicks of a session played straight through: for each submission
(two items and the time of the click) Check with the two items placed, then
Next. -/
def session : List (Item × Item × Int) → List Event
  | [] => []
  | s :: ss => .submit [s.1, s.2.1] s.2.2 :: .advance :: session ss

/-- The outcomes of submissions made at the indices `i`, `i + 1`, ... -/
def sessionLog (trials : List Trial) : Nat → List (Item × Item × Int) → List Outcome
  | _, [] => []
  | i, s :: ss =>
    (match trials[i]? with
      | some t => [Game.outcome i t s.1 s.2.1]
      | none => []) ++ sessionLog trials (i + 1) ss

/-- How many of the submissions made at the indices `i`, `i + 1`, ... are
correct. -/
def sessionScore (trials : List Trial) : Nat → List (Item × Item × Int) → Nat
  | _, [] => 0
  | i, s :: ss =>
    (match trials[i]? with
      | some t => if Game.isCorrect t s.1 s.2.1 then 1 else 0
      | none => 0) + sessionScore trials (i + 1) ss

/-- A configuration of forty trials. -/
def config40 : Config := { CONFIG with TOTAL_TRIALS := 40 }

/-- A catalog of forty trials: the shipped ten, four times over. -/
def catalog40 : List Trial := TRIALS_DATA ++ TRIALS_DATA ++ TRIALS_DATA ++ TRIALS_DATA

/-- Forty submissions for `catalog40`: the first 23 right, the other 17 wrong. -/
def answers40 : List (Item × Item × Int) :=
  (catalog40.take 23).map (fun t =>
    (({ type := "who", text := t.correctWho } : Item),
     ({ type := "doing", text := t.correctDoing } : Item), (0 : Int))) ++
  (catalog40.drop 23).map (fun t =>
    (({ type := "who", text := t.distWho } : Item),
     ({ type := "doing", text := t.distDoing } : Item), (0 : Int)))

/-- A session in the middle of the shipped game with the sound muted. -/
def mutedMidSession : World :=
  AudioManager.toggleMute
    (run CONFIG TRIALS_DATA (UI.startApp CONFIG false 0 freshPage).state
      [.submit (TRIALS_DATA.headD default).rightAnswer 1000, .advance])

/-- The trial numbers of the log increase strictly and none is ahead of the
trial on show; while Check is offered, Next is hidden and the trial on show
has no entry yet. -/
def Numbered (w : World) : Prop :=
  (w.gs.trialLog.map (fun o => o.trialNum)).Pairwise (fun a b => a < b) ∧
  (∀ o ∈ w.gs.trialLog, o.trialNum ≤ w.gs.currentIndex + 1) ∧
  (w.dom.checkBtnHidden = false →
    w.dom.nextBtnHidden = true ∧ ∀ o ∈ w.gs.trialLog, o.trialNum ≤ w.gs.currentIndex)

/-- While Next is offered in a session in progress, the trial on show has its
outcome in the log. -/
def Judged (cfg : Config) (w : World) : Prop :=
  w.dom.nextBtnHidden = false → w.gs.currentIndex < cfg.TOTAL_TRIALS →
    ∃ o ∈ w.gs.trialLog, o.trialNum = w.gs.currentIndex + 1

/-- A store the browser refuses access to. -/
def deniedStore : LocalStorage :=
  { item := none, accessDenied := true, quotaExceeded := false }

/-- The shipped game on its last trial, nine answers right so far, over a
store the browser refuses access to. -/
def lastTrialDenied : World :=
  Game.loadTrial CONFIG
    { gs := { currentIndex := 9, score := 9, trialLog := [], isMuted := false },
      dom := blankDOM, storage := deniedStore }

/-! ## Theorems -/

/-! ### Store and snapshot helpers -/

theorem saveProgress_eq (now : Int) (gs : GameState) (ls : LocalStorage) :
    GameState.saveProgress now gs ls =
      .ok (if ls.accessDenied = true ∨ ls.quotaExceeded = true then ls
           else { ls with item := some (.json (.snapshot
                    { currentIndex := gs.currentIndex, score := gs.score,
                      trialLog := gs.trialLog, timestamp := now })) }) := by
  unfold GameState.saveProgress GameState.saveProgressTry LocalStorage.setItem
  cases h1 : ls.accessDenied <;> cases h2 : ls.quotaExceeded <;> simp

theorem checkAnswer_judged (cfg : Config) (trials : List Trial) (now : Int) (w : World)
    (trial : Trial) (p0 p1 : Item) (rest : List Item)
    (hT : trials[w.gs.currentIndex]? = some trial) :
    ∃ dom : DOM, dom.checkBtnHidden = true ∧ dom.nextBtnHidden = false ∧
      dom.feedbackClass = (if Game.isCorrect trial p0 p1 then "correct" else "incorrect") ∧
      dom.gameContainerHidden = w.dom.gameContainerHidden ∧
      dom.resultScreenHidden = w.dom.resultScreenHidden ∧
      dom.finalPct = w.dom.finalPct ∧
      Game.checkAnswer cfg trials (p0 :: p1 :: rest) now w =
        .returned { gs := judgedState w.gs trial p0 p1, dom := dom,
                    storage := savedStore now (judgedState w.gs trial p0 p1) w.storage } := by
  unfold Game.checkAnswer
  simp only [hT, saveProgress_eq, judgedState, savedStore]
  cases hc : Game.isCorrect trial p0 p1 <;>
    by_cases hl : w.gs.currentIndex + 1 = cfg.TOTAL_TRIALS <;>
    simp only [hl, if_true, if_false, Bool.false_eq_true] <;>
    (refine ⟨_, ?_, ?_, ?_, ?_, ?_, ?_, rfl⟩ <;> rfl)

theorem checkAnswer_undefined (cfg : Config) (trials : List Trial) (now : Int) (w : World)
    (p0 p1 : Item) (rest : List Item) (hT : trials[w.gs.currentIndex]? = none) :
    Game.checkAnswer cfg trials (p0 :: p1 :: rest) now w = .threw Exn.TypeError w := by
  unfold Game.checkAnswer
  simp only [hT]

theorem isCorrect_iff (T : Trial) (p0 p1 : Item) :
    Game.isCorrect T p0 p1 = true ↔
      p0.type = "who" ∧ p0.text = T.correctWho ∧ p1.type = "doing" ∧ p1.text = T.correctDoing := by
  unfold Game.isCorrect
  simp only [Bool.and_eq_true, decide_eq_true_eq]
  tauto

theorem checkAnswer_short (cfg : Config) (trials : List Trial) (placed : List Item)
    (now : Int) (w : World) (h : placed.length < 2) :
    Game.checkAnswer cfg trials placed now w =
      .returned { w with
        dom := { w.dom with
          feedbackText := "Please drag both words to the sentence area!",
          feedbackClass := "" } } := by
  match placed, h with
  | [], _ => rfl
  | [_], _ => rfl
  | _ :: _ :: _, h => exact absurd h (by simp only [List.length_cons]; omega)

/-! ### C1 -/

/-- C1: for a trial `T` at the current index and a submission of at least two
items, the verdict of `Game.checkAnswer` is true exactly when the first item
is a "who" with text `T.correctWho` and the second a "doing" with text
`T.correctDoing`; the score goes up by one and the feedback is "correct" in
exactly that case and the feedback is "incorrect" in every other; the items
after the second change nothing in the result. -/
theorem checkAnswer_verdict (cfg : Config) (trials : List Trial) (now : Int) (w : World)
    (T : Trial) (p0 p1 : Item) (rest : List Item)
    (hT : trials[w.gs.currentIndex]? = some T) :
    (Game.isCorrect T p0 p1 = true ↔
      p0.type = "who" ∧ p0.text = T.correctWho ∧
      p1.type = "doing" ∧ p1.text = T.correctDoing) ∧
    ((Game.checkAnswer cfg trials (p0 :: p1 :: rest) now w).state.gs.score =
        w.gs.score + (if Game.isCorrect T p0 p1 then 1 else 0)) ∧
    ((Game.checkAnswer cfg trials (p0 :: p1 :: rest) now w).state.dom.feedbackClass =
        (if Game.isCorrect T p0 p1 then "correct" else "incorrect")) ∧
    Game.checkAnswer cfg trials (p0 :: p1 :: rest) now w =
      Game.checkAnswer cfg trials [p0, p1] now w := by
  obtain ⟨dom, -, -, hfb, -, -, -, heq⟩ := checkAnswer_judged cfg trials now w T p0 p1 rest hT
  refine ⟨isCorrect_iff T p0 p1, ?_, ?_, ?_⟩
  · rw [heq]
    cases hc : Game.isCorrect T p0 p1 <;> simp [Result.state, judgedState, hc]
  · rw [heq]
    exact hfb
  · unfold Game.checkAnswer
    rfl

/-- C1 at the first shipped trial: the right pair passes, and stays right
with a third item placed after it. -/
theorem checkAnswer_verdict_witness :
    TRIALS_DATA[freshPage.gs.currentIndex]? = some (TRIALS_DATA.headD default) ∧
    (Game.checkAnswer CONFIG TRIALS_DATA
      ({ type := "who", text := "The dog" } :: { type := "doing", text := "is smelling" } ::
        [{ type := "who", text := "The cat" }]) 0 freshPage).state.gs.score =
      freshPage.gs.score +
        (if Game.isCorrect (TRIALS_DATA.headD default) { type := "who", text := "The dog" }
            { type := "doing", text := "is smelling" } then 1 else 0) :=
  ⟨by decide,
   (checkAnswer_verdict CONFIG TRIALS_DATA 0 freshPage (TRIALS_DATA.headD default)
      { type := "who", text := "The dog" } { type := "doing", text := "is smelling" }
      [{ type := "who", text := "The cat" }] (by decide)).2.1⟩

/-! ### C2 -/

/-- C2: with fewer than two placed items `Game.checkAnswer` returns leaving
`GameState` (index, score, log, mute flag) and the store untouched; on the
page only the feedback changes, to the request for both words with an empty
class, and neither button changes. -/
theorem checkAnswer_incomplete (cfg : Config) (trials : List Trial) (placed : List Item)
    (now : Int) (w : World) (h : placed.length < 2) :
    Game.checkAnswer cfg trials placed now w =
      .returned { w with
        dom := { w.dom with
          feedbackText := "Please drag both words to the sentence area!",
          feedbackClass := "" } } ∧
    (Game.checkAnswer cfg trials placed now w).state.gs = w.gs ∧
    (Game.checkAnswer cfg trials placed now w).state.storage = w.storage ∧
    (Game.checkAnswer cfg trials placed now w).failed = false ∧
    (Game.checkAnswer cfg trials placed now w).state.dom.feedbackClass ≠ "incorrect" := by
  have key := checkAnswer_short cfg trials placed now w h
  rw [key]
  refine ⟨rfl, rfl, rfl, rfl, ?_⟩
  simp [Result.state]

/-- C2 on a fresh page with a single symbol placed. -/
theorem checkAnswer_incomplete_witness :
    [({ type := "who", text := "The dog" } : Item)].length < 2 ∧
    (Game.checkAnswer CONFIG TRIALS_DATA [{ type := "who", text := "The dog" }] 0
      freshPage).state.gs = freshPage.gs :=
  ⟨by decide,
   (checkAnswer_incomplete CONFIG TRIALS_DATA [{ type := "who", text := "The dog" }] 0
      freshPage (by decide)).2.1⟩

/-! ### How one click changes the state -/

theorem passCount_append (log : List Outcome) (o : Outcome) :
    passCount (log ++ [o]) = passCount log + (if o.status = "Pass" then 1 else 0) := by
  unfold passCount
  by_cases h : o.status = "Pass" <;> simp [List.filter_append, h]

theorem passCount_le (log : List Outcome) : passCount log ≤ log.length := by
  unfold passCount
  exact List.length_filter_le _ _

theorem outcome_status_pass (i : Nat) (T : Trial) (p0 p1 : Item) :
    (Game.outcome i T p0 p1).status = "Pass" ↔ Game.isCorrect T p0 p1 = true := by
  unfold Game.outcome
  cases Game.isCorrect T p0 p1 <;> simp

theorem nextTrial_load (cfg : Config) (w : World)
    (h : w.gs.currentIndex + 1 < cfg.TOTAL_TRIALS) :
    Game.nextTrial cfg w =
      .returned (Game.loadTrial cfg
        { w with gs := { w.gs with currentIndex := w.gs.currentIndex + 1 } }) := by
  unfold Game.nextTrial
  simp only [h, if_true]

theorem nextTrial_results (cfg : Config) (w : World)
    (h : ¬ w.gs.currentIndex + 1 < cfg.TOTAL_TRIALS) :
    Game.nextTrial cfg w =
      Game.showResults cfg
        { w with gs := { w.gs with currentIndex := w.gs.currentIndex + 1 } } := by
  unfold Game.nextTrial
  simp only [h, if_false]

theorem showResults_state (cfg : Config) (w : World) :
    (Game.showResults cfg w).state.gs = w.gs ∧
    (Game.showResults cfg w).state.dom.checkBtnHidden = w.dom.checkBtnHidden ∧
    (Game.showResults cfg w).state.dom.nextBtnHidden = w.dom.nextBtnHidden := by
  unfold Game.showResults GameState.clearProgress LocalStorage.removeItem
  cases h : w.storage.accessDenied <;> simp [Result.state]

theorem fire_inv (cfg : Config) (trials : List Trial) (w : World) (e : Event)
    (h : Inv cfg w) : Inv cfg (Event.fire cfg trials w e) := by
  obtain ⟨h1, h2, h3, h4⟩ := h
  cases e with
  | submit placed now =>
    unfold Event.fire
    cases hc : w.dom.checkBtnHidden with
    | true => simpa using ⟨h1, h2, h3, h4⟩
    | false =>
      simp only [Bool.false_eq_true, if_false]
      obtain ⟨h5, h6, h7⟩ := h4 hc
      match placed with
      | [] =>
        rw [checkAnswer_short cfg trials [] now w (by simp)]
        exact ⟨h1, h2, h3, fun _ => ⟨h5, h6, h7⟩⟩
      | [p] =>
        rw [checkAnswer_short cfg trials [p] now w (by simp)]
        exact ⟨h1, h2, h3, fun _ => ⟨h5, h6, h7⟩⟩
      | p0 :: p1 :: rest =>
        cases hT : trials[w.gs.currentIndex]? with
        | none =>
          rw [checkAnswer_undefined cfg trials now w p0 p1 rest hT]
          exact ⟨h1, h2, h3, fun _ => ⟨h5, h6, h7⟩⟩
        | some T =>
          obtain ⟨dom, hd1, -, -, -, -, -, heq⟩ :=
            checkAnswer_judged cfg trials now w T p0 p1 rest hT
          rw [heq]
          simp only [Result.state, Inv, judgedState, List.length_append, List.length_singleton,
            passCount_append, outcome_status_pass, hd1]
          refine ⟨?_, by omega, by omega, by simp⟩
          cases Game.isCorrect T p0 p1 <;> simp [h1]
  | advance =>
    unfold Event.fire
    cases hn : w.dom.nextBtnHidden with
    | true => simpa using ⟨h1, h2, h3, h4⟩
    | false =>
      simp only [Bool.false_eq_true, if_false]
      have hch : w.dom.checkBtnHidden = true := by
        cases hc : w.dom.checkBtnHidden with
        | true => rfl
        | false => have := (h4 hc).1; simp [hn] at this
      by_cases hlt : w.gs.currentIndex + 1 < cfg.TOTAL_TRIALS
      · rw [nextTrial_load cfg w hlt]
        simp only [Result.state, Inv, Game.loadTrial]
        exact ⟨h1, h2, by omega, fun _ => ⟨trivial, h3, hlt⟩⟩
      · rw [nextTrial_results cfg w hlt]
        obtain ⟨e1, e2, e3⟩ := showResults_state cfg
          { w with gs := { w.gs with currentIndex := w.gs.currentIndex + 1 } }
        simp only [Inv, e1, e2, e3, hch]
        exact ⟨h1, h2, by omega, by simp⟩

theorem run_inv (cfg : Config) (trials : List Trial) (es : List Event) :
    ∀ w : World, Inv cfg w → Inv cfg (run cfg trials w es) := by
  induction es with
  | nil => intro w h; exact h
  | cons e es ih =>
    intro w h
    exact ih _ (fire_inv cfg trials w e h)

theorem startApp_fresh (cfg : Config) (confirmAnswer : Bool) (now : Int) (w0 : World)
    (hnew : GameState.loadProgress now w0.storage = .ok none ∨ confirmAnswer = false) :
    UI.startApp cfg confirmAnswer now w0 = .returned (Game.loadTrial cfg w0) := by
  unfold UI.startApp
  rcases hnew with h | h
  · rw [h]
  · subst h
    cases hl : GameState.loadProgress now w0.storage with
    | error e => 
      unfold GameState.loadProgress at hl
      cases h2 : GameState.loadProgressTry now w0.storage <;> simp [h2] at hl
    | ok r => cases r <;> simp

/-! ### C3 -/

/-- C3: in every state reached from a fresh start (index 0, score 0, empty
log, `startApp` not restoring a snapshot) by any sequence of Check and Next
clicks, the score equals the number of "Pass" entries of the log and is at
most `TOTAL_TRIALS`, whether the session is in progress or completed. -/
theorem score_counts_passes (cfg : Config) (trials : List Trial) (confirmAnswer : Bool)
    (now : Int) (w0 : World) (es : List Event)
    (hpos : 0 < cfg.TOTAL_TRIALS)
    (hfresh : w0.gs.currentIndex = 0 ∧ w0.gs.score = 0 ∧ w0.gs.trialLog = [])
    (hnew : GameState.loadProgress now w0.storage = .ok none ∨ confirmAnswer = false) :
    (run cfg trials (UI.startApp cfg confirmAnswer now w0).state es).gs.score =
      passCount (run cfg trials (UI.startApp cfg confirmAnswer now w0).state es).gs.trialLog ∧
    (run cfg trials (UI.startApp cfg confirmAnswer now w0).state es).gs.score
      ≤ cfg.TOTAL_TRIALS := by
  rw [startApp_fresh cfg confirmAnswer now w0 hnew]
  obtain ⟨f1, f2, f3⟩ := hfresh
  have h0 : Inv cfg (Game.loadTrial cfg w0) := by
    simp only [Inv, Game.loadTrial, f1, f2, f3, passCount]
    simp [hpos]
  obtain ⟨i1, i2, -, -⟩ := run_inv cfg trials es _ h0
  refine ⟨i1, ?_⟩
  show (run cfg trials (Game.loadTrial cfg w0) es).gs.score ≤ cfg.TOTAL_TRIALS
  rw [i1]
  exact le_trans (passCount_le _) i2

/-- C3 on the shipped game: a right answer to the first trial, then Next. -/
theorem score_counts_passes_witness :
    0 < CONFIG.TOTAL_TRIALS ∧
    (run CONFIG TRIALS_DATA (UI.startApp CONFIG false 0 freshPage).state
      [.submit (TRIALS_DATA.headD default).rightAnswer 5, .advance]).gs.score ≤
        CONFIG.TOTAL_TRIALS :=
  ⟨by decide,
   (score_counts_passes CONFIG TRIALS_DATA false 0 freshPage
      [.submit (TRIALS_DATA.headD default).rightAnswer 5, .advance]
      (by decide) ⟨rfl, rfl, rfl⟩ (Or.inr rfl)).2⟩

/-! ### C4 -/

theorem fire_numbered (cfg : Config) (trials : List Trial) (w : World) (e : Event)
    (h : Numbered w) : Numbered (Event.fire cfg trials w e) := by
  obtain ⟨h1, h2, h3⟩ := h
  cases e with
  | submit placed now =>
    unfold Event.fire
    cases hc : w.dom.checkBtnHidden with
    | true => simpa using ⟨h1, h2, h3⟩
    | false =>
      simp only [Bool.false_eq_true, if_false]
      obtain ⟨h5, h6⟩ := h3 hc
      match placed with
      | [] =>
        rw [checkAnswer_short cfg trials [] now w (by simp)]
        exact ⟨h1, h2, fun _ => ⟨h5, h6⟩⟩
      | [p] =>
        rw [checkAnswer_short cfg trials [p] now w (by simp)]
        exact ⟨h1, h2, fun _ => ⟨h5, h6⟩⟩
      | p0 :: p1 :: rest =>
        cases hT : trials[w.gs.currentIndex]? with
        | none =>
          rw [checkAnswer_undefined cfg trials now w p0 p1 rest hT]
          exact ⟨h1, h2, fun _ => ⟨h5, h6⟩⟩
        | some T =>
          obtain ⟨dom, hd1, -, -, -, -, -, heq⟩ :=
            checkAnswer_judged cfg trials now w T p0 p1 rest hT
          rw [heq]
          refine ⟨?_, ?_, ?_⟩
          · simp only [Result.state, judgedState, List.map_append, List.map_cons, List.map_nil,
              List.pairwise_append, List.pairwise_singleton, List.mem_map, List.mem_singleton,
              true_and]
            refine ⟨h1, ?_⟩
            rintro a ⟨o, ho, rfl⟩ b rfl
            have := h6 o ho
            simp only [Game.outcome]
            omega
          · intro o ho
            simp only [Result.state, judgedState, List.mem_append, List.mem_singleton] at ho ⊢
            rcases ho with ho | rfl
            · exact h2 o ho
            · simp [Game.outcome]
          · intro hh
            simp [Result.state, hd1] at hh
  | advance =>
    unfold Event.fire
    cases hn : w.dom.nextBtnHidden with
    | true => simpa using ⟨h1, h2, h3⟩
    | false =>
      simp only [Bool.false_eq_true, if_false]
      have hch : w.dom.checkBtnHidden = true := by
        cases hc : w.dom.checkBtnHidden with
        | true => rfl
        | false => have := (h3 hc).1; simp [hn] at this
      by_cases hlt : w.gs.currentIndex + 1 < cfg.TOTAL_TRIALS
      · rw [nextTrial_load cfg w hlt]
        exact ⟨h1, fun o ho => Nat.le_succ_of_le (h2 o ho), fun _ => ⟨rfl, h2⟩⟩
      · rw [nextTrial_results cfg w hlt]
        obtain ⟨e1, e2, e3⟩ := showResults_state cfg
          { w with gs := { w.gs with currentIndex := w.gs.currentIndex + 1 } }
        refine ⟨?_, ?_, ?_⟩
        · rw [e1]; exact h1
        · rw [e1]; exact fun o ho => Nat.le_succ_of_le (h2 o ho)
        · intro hh
          rw [e2, hch] at hh
          exact absurd hh (by simp)

/-- Started on an empty log, whatever is clicked, the trial numbers in the log
increase strictly: Check is hidden once a trial is judged and shown again
only by `loadTrial` for the next index. -/
theorem fresh_log_numbers_increase (cfg : Config) (trials : List Trial) (w0 : World)
    (es : List Event) (hlog : w0.gs.trialLog = []) :
    ((run cfg trials (Game.loadTrial cfg w0) es).gs.trialLog.map
      (fun o => o.trialNum)).Pairwise (fun a b => a < b) := by
  have h0 : Numbered (Game.loadTrial cfg w0) := by
    refine ⟨?_, ?_, fun _ => ⟨rfl, ?_⟩⟩
    · show (w0.gs.trialLog.map (fun o => o.trialNum)).Pairwise (fun a b => a < b)
      rw [hlog]; exact List.Pairwise.nil
    · intro o ho
      have : o ∈ w0.gs.trialLog := ho
      rw [hlog] at this; simp at this
    · intro o ho
      have : o ∈ w0.gs.trialLog := ho
      rw [hlog] at this; simp at this
  have key : ∀ (es : List Event) (w : World), Numbered w → Numbered (run cfg trials w es) := by
    intro es
    induction es with
    | nil => intro w h; exact h
    | cons e es ih => intro w h; exact ih _ (fire_numbered cfg trials w e h)
  exact (key es _ h0).1

/-- C4, evaluated: the first trial is answered correctly (the snapshot is
saved with index 0 and the outcome of trial 1), the page is loaded again and
the snapshot restored two seconds later; Check is offered again for the
trial already judged, and a second submission logs trial number 1 a second
time and counts it a second time. -/
theorem restored_trial_is_judged_twice :
    (Event.fire CONFIG TRIALS_DATA
        (UI.startApp CONFIG true 3000
          (Location.reload blankDOM
            (Event.fire CONFIG TRIALS_DATA (UI.startApp CONFIG false 0 freshPage).state
              (.submit (TRIALS_DATA.headD default).rightAnswer 1000)))).state
        (.submit (TRIALS_DATA.headD default).rightAnswer 4000)).gs.trialLog.map
          (fun o => o.trialNum) = [1, 1] ∧
    (Event.fire CONFIG TRIALS_DATA
        (UI.startApp CONFIG true 3000
          (Location.reload blankDOM
            (Event.fire CONFIG TRIALS_DATA (UI.startApp CONFIG false 0 freshPage).state
              (.submit (TRIALS_DATA.headD default).rightAnswer 1000)))).state
        (.submit (TRIALS_DATA.headD default).rightAnswer 4000)).gs.score = 2 := by
  decide

/-! ### C5 -/

theorem fire_log (cfg : Config) (trials : List Trial) (w : World) (e : Event) :
    w.gs.trialLog <+: (Event.fire cfg trials w e).gs.trialLog := by
  cases e with
  | submit placed now =>
    unfold Event.fire
    cases hc : w.dom.checkBtnHidden with
    | true => simp
    | false =>
      simp only [Bool.false_eq_true, if_false]
      match placed with
      | [] => rw [checkAnswer_short cfg trials [] now w (by simp)]; simp [Result.state]
      | [p] => rw [checkAnswer_short cfg trials [p] now w (by simp)]; simp [Result.state]
      | p0 :: p1 :: rest =>
        cases hT : trials[w.gs.currentIndex]? with
        | none => rw [checkAnswer_undefined cfg trials now w p0 p1 rest hT]; simp [Result.state]
        | some T =>
          obtain ⟨dom, -, -, -, -, -, -, heq⟩ :=
            checkAnswer_judged cfg trials now w T p0 p1 rest hT
          rw [heq]
          simp [Result.state, judgedState]
  | advance =>
    unfold Event.fire
    cases hn : w.dom.nextBtnHidden with
    | true => simp
    | false =>
      simp only [Bool.false_eq_true, if_false]
      by_cases hlt : w.gs.currentIndex + 1 < cfg.TOTAL_TRIALS
      · rw [nextTrial_load cfg w hlt]; simp [Result.state, Game.loadTrial]
      · rw [nextTrial_results cfg w hlt, (showResults_state cfg _).1]

theorem run_log (cfg : Config) (trials : List Trial) (es : List Event) :
    ∀ w : World, w.gs.trialLog <+: (run cfg trials w es).gs.trialLog := by
  induction es with
  | nil => intro w; exact List.prefix_refl _
  | cons e es ih =>
    intro w
    exact List.IsPrefix.trans (fire_log cfg trials w e) (ih _)

theorem run_append (cfg : Config) (trials : List Trial) (w : World) (es1 es2 : List Event) :
    run cfg trials w (es1 ++ es2) = run cfg trials (run cfg trials w es1) es2 := by
  unfold run
  exact List.foldl_append _ _ _ _

theorem fire_step (cfg : Config) (trials : List Trial) (w : World) (e : Event)
    (hlen : cfg.TOTAL_TRIALS ≤ trials.length) (hco : Coherent cfg w) :
    Coherent cfg (Event.fire cfg trials w e) ∧
    (Event.fire cfg trials w e).gs.trialLog.map some =
      w.gs.trialLog.map some ++ (calls cfg trials w [e]).map (callOutcome trials) := by
  cases e with
  | submit placed now =>
    unfold Event.fire
    cases hc : w.dom.checkBtnHidden with
    | true =>
      refine ⟨by simpa using hco, ?_⟩
      match placed with
      | [] => simp [calls]
      | [p] => simp [calls]
      | p0 :: p1 :: rest => simp [calls, hc]
    | false =>
      simp only [Bool.false_eq_true, if_false]
      obtain ⟨h5, h7⟩ := hco hc
      match placed with
      | [] =>
        rw [checkAnswer_short cfg trials [] now w (by simp)]
        exact ⟨fun _ => ⟨h5, h7⟩, by simp [calls, Result.state]⟩
      | [p] =>
        rw [checkAnswer_short cfg trials [p] now w (by simp)]
        exact ⟨fun _ => ⟨h5, h7⟩, by simp [calls, Result.state]⟩
      | p0 :: p1 :: rest =>
        have hi : w.gs.currentIndex < trials.length := lt_of_lt_of_le h7 hlen
        have hT : trials[w.gs.currentIndex]? = some (trials[w.gs.currentIndex]) :=
          List.getElem?_eq_getElem hi
        obtain ⟨dom, hd1, -, -, -, -, -, heq⟩ :=
          checkAnswer_judged cfg trials now w _ p0 p1 rest hT
        rw [heq]
        refine ⟨?_, ?_⟩
        · intro hh
          simp [Result.state, hd1] at hh
        · simp [Result.state, judgedState, calls, hc, callOutcome, hT]
  | advance =>
    unfold Event.fire
    cases hn : w.dom.nextBtnHidden with
    | true => exact ⟨by simpa using hco, by simp [calls]⟩
    | false =>
      simp only [Bool.false_eq_true, if_false]
      have hch : w.dom.checkBtnHidden = true := by
        cases hc : w.dom.checkBtnHidden with
        | true => rfl
        | false => have := (hco hc).1; simp [hn] at this
      by_cases hlt : w.gs.currentIndex + 1 < cfg.TOTAL_TRIALS
      · rw [nextTrial_load cfg w hlt]
        exact ⟨fun _ => ⟨rfl, hlt⟩, by simp [Result.state, Game.loadTrial, calls]⟩
      · rw [nextTrial_results cfg w hlt]
        obtain ⟨e1, e2, e3⟩ := showResults_state cfg
          { w with gs := { w.gs with currentIndex := w.gs.currentIndex + 1 } }
        refine ⟨?_, by simp [e1, calls]⟩
        intro hh
        rw [e2, hch] at hh
        exact absurd hh (by simp)

theorem calls_cons (cfg : Config) (trials : List Trial) (w : World) (e : Event)
    (es : List Event) :
    calls cfg trials w (e :: es) =
      calls cfg trials w [e] ++ calls cfg trials (Event.fire cfg trials w e) es := by
  simp [calls]

theorem run_calls (cfg : Config) (trials : List Trial) (es : List Event)
    (hlen : cfg.TOTAL_TRIALS ≤ trials.length) :
    ∀ w : World, Coherent cfg w →
      (run cfg trials w es).gs.trialLog.map some =
        w.gs.trialLog.map some ++ (calls cfg trials w es).map (callOutcome trials) := by
  induction es with
  | nil => intro w _; simp [run, calls]
  | cons e es ih =>
    intro w hco
    obtain ⟨hco1, hstep⟩ := fire_step cfg trials w e hlen hco
    have := ih _ hco1
    rw [calls_cons, List.map_append, ← List.append_assoc, ← hstep]
    exact this

/-- C5: start a session (`loadTrial`) on an empty log at an index below
`TOTAL_TRIALS`, with a catalog that covers `TOTAL_TRIALS`. After any clicks,
the log is, entry by entry and in order, the list of outcomes of the
`checkAnswer` calls that had at least two placed items, so its length is
their number; and after any further clicks the log then reached still starts
with the log as it was. -/
theorem log_is_submission_history (cfg : Config) (trials : List Trial) (w0 : World)
    (es more : List Event)
    (hlog : w0.gs.trialLog = [])
    (hidx : w0.gs.currentIndex < cfg.TOTAL_TRIALS)
    (hlen : cfg.TOTAL_TRIALS ≤ trials.length) :
    (run cfg trials (Game.loadTrial cfg w0) es).gs.trialLog.map some =
      (calls cfg trials (Game.loadTrial cfg w0) es).map (callOutcome trials) ∧
    (run cfg trials (Game.loadTrial cfg w0) es).gs.trialLog.length =
      (calls cfg trials (Game.loadTrial cfg w0) es).length ∧
    (run cfg trials (Game.loadTrial cfg w0) es).gs.trialLog <+:
      (run cfg trials (Game.loadTrial cfg w0) (es ++ more)).gs.trialLog := by
  have hco : Coherent cfg (Game.loadTrial cfg w0) := fun _ => ⟨rfl, hidx⟩
  have h := run_calls cfg trials es hlen _ hco
  have h0 : (Game.loadTrial cfg w0).gs.trialLog = [] := hlog
  rw [h0, List.map_nil, List.nil_append] at h
  refine ⟨h, ?_, ?_⟩
  · have := congrArg List.length h
    simpa using this
  · rw [run_append]
    exact run_log cfg trials more _

/-- C5 on the shipped game: one symbol only, then a wrong pair, then Next. -/
theorem log_is_submission_history_witness :
    freshPage.gs.trialLog = [] ∧
    (run CONFIG TRIALS_DATA (Game.loadTrial CONFIG freshPage)
      [.submit [{ type := "who", text := "The dog" }] 1,
       .submit (TRIALS_DATA.headD default).wrongAnswer 2, .advance]).gs.trialLog.length =
    (calls CONFIG TRIALS_DATA (Game.loadTrial CONFIG freshPage)
      [.submit [{ type := "who", text := "The dog" }] 1,
       .submit (TRIALS_DATA.headD default).wrongAnswer 2, .advance]).length :=
  ⟨rfl,
   (log_is_submission_history CONFIG TRIALS_DATA freshPage
      [.submit [{ type := "who", text := "The dog" }] 1,
       .submit (TRIALS_DATA.headD default).wrongAnswer 2, .advance] []
      rfl (by decide) (by decide)).2.1⟩

/-! ### C6 -/

/-- C6: in progress at index `i` with the catalog covering `TOTAL_TRIALS`,
a submission of at least two items makes `checkAnswer` append exactly one
outcome: trial number `i + 1`, the two correct terms of trial `i` joined by
one space, the texts of the first two placed items joined by one space, and
status "Pass" when the verdict is true, "Fail" when it is false. -/
theorem checkAnswer_appends_outcome (cfg : Config) (trials : List Trial) (now : Int)
    (w : World) (p0 p1 : Item) (rest : List Item)
    (hprog : w.gs.currentIndex < cfg.TOTAL_TRIALS)
    (hlen : cfg.TOTAL_TRIALS ≤ trials.length) :
    ∃ T : Trial, ∃ o : Outcome,
      trials[w.gs.currentIndex]? = some T ∧
      (Game.checkAnswer cfg trials (p0 :: p1 :: rest) now w).state.gs.trialLog =
        w.gs.trialLog ++ [o] ∧
      o.trialNum = w.gs.currentIndex + 1 ∧
      o.sentence = T.correctWho ++ " " ++ T.correctDoing ∧
      o.userAnswer = p0.text ++ " " ++ p1.text ∧
      (Game.isCorrect T p0 p1 = true → o.status = "Pass") ∧
      (Game.isCorrect T p0 p1 = false → o.status = "Fail") := by
  have hi : w.gs.currentIndex < trials.length := lt_of_lt_of_le hprog hlen
  have hT : trials[w.gs.currentIndex]? = some (trials[w.gs.currentIndex]) :=
    List.getElem?_eq_getElem hi
  obtain ⟨dom, -, -, -, -, -, -, heq⟩ := checkAnswer_judged cfg trials now w _ p0 p1 rest hT
  refine ⟨_, Game.outcome w.gs.currentIndex (trials[w.gs.currentIndex]) p0 p1, hT, ?_,
    rfl, rfl, rfl, ?_, ?_⟩
  · rw [heq]
    rfl
  · intro h
    simp [Game.outcome, h]
  · intro h
    simp [Game.outcome, h]

/-- C6 on the shipped game at index 0 with the two distractors placed. -/
theorem checkAnswer_appends_outcome_witness :
    freshPage.gs.currentIndex < CONFIG.TOTAL_TRIALS ∧
    CONFIG.TOTAL_TRIALS ≤ TRIALS_DATA.length ∧
    ∃ T : Trial, ∃ o : Outcome,
      TRIALS_DATA[freshPage.gs.currentIndex]? = some T ∧
      (Game.checkAnswer CONFIG TRIALS_DATA
        ({ type := "who", text := "The cat" } :: { type := "doing", text := "is sleeping" } :: [])
        7 freshPage).state.gs.trialLog = freshPage.gs.trialLog ++ [o] ∧
      o.trialNum = freshPage.gs.currentIndex + 1 ∧
      o.sentence = T.correctWho ++ " " ++ T.correctDoing ∧
      o.userAnswer = "The cat" ++ " " ++ "is sleeping" ∧
      (Game.isCorrect T { type := "who", text := "The cat" }
          { type := "doing", text := "is sleeping" } = true → o.status = "Pass") ∧
      (Game.isCorrect T { type := "who", text := "The cat" }
          { type := "doing", text := "is sleeping" } = false → o.status = "Fail") :=
  ⟨by decide, by decide,
   checkAnswer_appends_outcome CONFIG TRIALS_DATA 7 freshPage
     { type := "who", text := "The cat" } { type := "doing", text := "is sleeping" } []
     (by decide) (by decide)⟩

/-! ### C7 -/

set_option maxRecDepth 100000 in
theorem percentage_rounds_below_40 :
    ∀ n, n < 40 → ∀ k, k ≤ n → 0 < n → percentage k n = some (roundHalfUp (100 * k) n) := by
  decide!

theorem showResults_ok (cfg : Config) (w : World) (hstore : w.storage.accessDenied = false) :
    Game.showResults cfg w =
      .returned { w with
        storage := { w.storage with item := none },
        dom := { w.dom with
          gameContainerHidden := true,
          resultScreenHidden := false,
          finalPct := some (percentage w.gs.score cfg.TOTAL_TRIALS),
          logBody := w.gs.trialLog.map (fun o => (o.trialNum, o.sentence, o.status)),
          celebrationActive :=
            if cfg.HIGH_SCORE_THRESHOLD ≤ w.gs.score then true
            else w.dom.celebrationActive } } := by
  unfold Game.showResults GameState.clearProgress LocalStorage.removeItem
  simp [hstore]

/-- C7: with a store that can be accessed and fewer than 40 trials (the
shipped 10 among them), `Game.nextTrial` at the last index returns with the
index at `TOTAL_TRIALS`, the game hidden and the result screen shown, the
stored item removed, and, for a score of at most `TOTAL_TRIALS`, the printed
percentage equal to 100 * score / TOTAL_TRIALS rounded to the nearest
integer; score, log and mute flag are kept. At a smaller index it returns
with only the index of `GameState` incremented and still below
`TOTAL_TRIALS`, the store untouched and the result screen, game container
and printed percentage as they were. -/
theorem nextTrial_last_or_earlier (cfg : Config) (w : World) :
    (w.gs.currentIndex + 1 = cfg.TOTAL_TRIALS → w.storage.accessDenied = false →
      cfg.TOTAL_TRIALS < 40 → w.gs.score ≤ cfg.TOTAL_TRIALS →
        Game.nextTrial cfg w = .returned (Game.nextTrial cfg w).state ∧
        (Game.nextTrial cfg w).state.gs =
          { w.gs with currentIndex := cfg.TOTAL_TRIALS } ∧
        (Game.nextTrial cfg w).state.dom.gameContainerHidden = true ∧
        (Game.nextTrial cfg w).state.dom.resultScreenHidden = false ∧
        (Game.nextTrial cfg w).state.storage.item = none ∧
        (Game.nextTrial cfg w).state.dom.finalPct =
          some (some (roundHalfUp (100 * w.gs.score) cfg.TOTAL_TRIALS))) ∧
    (w.gs.currentIndex + 1 < cfg.TOTAL_TRIALS →
        Game.nextTrial cfg w = .returned (Game.nextTrial cfg w).state ∧
        (Game.nextTrial cfg w).state.gs =
          { w.gs with currentIndex := w.gs.currentIndex + 1 } ∧
        (Game.nextTrial cfg w).state.gs.currentIndex < cfg.TOTAL_TRIALS ∧
        (Game.nextTrial cfg w).state.storage = w.storage ∧
        (Game.nextTrial cfg w).state.dom.gameContainerHidden = w.dom.gameContainerHidden ∧
        (Game.nextTrial cfg w).state.dom.resultScreenHidden = w.dom.resultScreenHidden ∧
        (Game.nextTrial cfg w).state.dom.finalPct = w.dom.finalPct) := by
  constructor
  · intro hlast hstore hcap hscore
    have hnot : ¬ w.gs.currentIndex + 1 < cfg.TOTAL_TRIALS := by omega
    have hpct := percentage_rounds_below_40 cfg.TOTAL_TRIALS hcap w.gs.score hscore (by omega)
    have hs := showResults_ok cfg
      { w with gs := { w.gs with currentIndex := w.gs.currentIndex + 1 } } hstore
    rw [nextTrial_results cfg w hnot, hs]
    simp [Result.state, hlast, hpct]
  · intro hlt
    rw [nextTrial_load cfg w hlt]
    simp [Result.state, Game.loadTrial, hlt]

/-- C7 on the shipped game: Next at index 9 with 7 right answers prints 70. -/
theorem nextTrial_last_or_earlier_witness :
    (Game.nextTrial CONFIG
      { freshPage with gs := { freshPage.gs with currentIndex := 9, score := 7 } }).state.dom.finalPct
      = some (some 70) ∧
    (Game.nextTrial CONFIG freshPage).state.gs.currentIndex < CONFIG.TOTAL_TRIALS :=
  ⟨((nextTrial_last_or_earlier CONFIG
      { freshPage with gs := { freshPage.gs with currentIndex := 9, score := 7 } }).1
      (by decide) (by decide) (by decide) (by decide)).2.2.2.2.2,
   ((nextTrial_last_or_earlier CONFIG freshPage).2 (by decide)).2.2.1⟩

/-! ### C8 -/

/-- C8: `GameState.loadProgress` always returns (it never throws). It
returns a snapshot exactly when the store hands out a text that parses to
that snapshot and `now - timestamp < 3600000`; it returns `null` when nothing
is stored, when the text does not parse, and when the age is 3600000 ms or
more; so an age of exactly 3600000 ms is rejected and 3599999 ms accepted. -/
theorem loadProgress_spec (now : Int) (ls : LocalStorage) :
    (∃ r, GameState.loadProgress now ls = .ok r) ∧
    (∀ p, GameState.loadProgress now ls = .ok (some p) ↔
      (ls.getItem = .ok (some (.json (.snapshot p))) ∧ now - p.timestamp < 3600000)) ∧
    (ls.getItem = .ok none → GameState.loadProgress now ls = .ok none) ∧
    (ls.getItem = .ok (some .malformed) → GameState.loadProgress now ls = .ok none) ∧
    (∀ p, ls.getItem = .ok (some (.json (.snapshot p))) → 3600000 ≤ now - p.timestamp →
      GameState.loadProgress now ls = .ok none) ∧
    (∀ p, ls.getItem = .ok (some (.json (.snapshot p))) → now - p.timestamp = 3600000 →
      GameState.loadProgress now ls = .ok none) ∧
    (∀ p, ls.getItem = .ok (some (.json (.snapshot p))) → now - p.timestamp = 3599999 →
      GameState.loadProgress now ls = .ok (some p)) := by
  unfold GameState.loadProgress GameState.loadProgressTry
  cases hg : ls.getItem with
  | error e => simp
  | ok item =>
    match item with
    | none => simp
    | some .empty => simp
    | some .malformed => simp
    | some (.json .null) => simp
    | some (.json .noTimestamp) => simp
    | some (.json (.snapshot q)) =>
      by_cases hage : now - q.timestamp < 3600000
      · simp only [hage, if_true]
        refine ⟨⟨_, rfl⟩, ?_, by simp, by simp, ?_, ?_, ?_⟩
        · intro p
          constructor
          · intro h
            simp only [Except.ok.injEq, Option.some.injEq] at h
            subst h
            exact ⟨rfl, hage⟩
          · rintro ⟨h, -⟩
            simp only [Except.ok.injEq, Option.some.injEq, StoredText.json.injEq,
              JsonValue.snapshot.injEq] at h
            rw [h]
        · intro p h hold
          simp only [Except.ok.injEq, Option.some.injEq, StoredText.json.injEq,
            JsonValue.snapshot.injEq] at h
          subst h
          omega
        · intro p h hold
          simp only [Except.ok.injEq, Option.some.injEq, StoredText.json.injEq,
            JsonValue.snapshot.injEq] at h
          subst h
          omega
        · intro p h _
          simp only [Except.ok.injEq, Option.some.injEq, StoredText.json.injEq,
            JsonValue.snapshot.injEq] at h
          rw [h]
      · simp only [hage, if_false]
        refine ⟨⟨_, rfl⟩, ?_, by simp, by simp, by simp, by simp, ?_⟩
        · intro p
          constructor
          · intro h
            simp at h
          · rintro ⟨h, hp⟩
            simp only [Except.ok.injEq, Option.some.injEq, StoredText.json.injEq,
              JsonValue.snapshot.injEq] at h
            subst h
            exact absurd hp hage
        · intro p h hp
          simp only [Except.ok.injEq, Option.some.injEq, StoredText.json.injEq,
            JsonValue.snapshot.injEq] at h
          subst h
          omega

/-- C8 at the boundary: a snapshot stamped 0 is refused at time 3600000 and
returned at time 3599999. -/
theorem loadProgress_spec_witness :
    GameState.loadProgress 3600000
      { emptyStore with item := some (.json (.snapshot
          { currentIndex := 3, score := 2, trialLog := [], timestamp := 0 })) } = .ok none ∧
    GameState.loadProgress 3599999
      { emptyStore with item := some (.json (.snapshot
          { currentIndex := 3, score := 2, trialLog := [], timestamp := 0 })) } =
      .ok (some { currentIndex := 3, score := 2, trialLog := [], timestamp := 0 }) :=
  ⟨(loadProgress_spec 3600000
      { emptyStore with item := some (.json (.snapshot
          { currentIndex := 3, score := 2, trialLog := [], timestamp := 0 })) }).2.2.2.2.2.1
      _ rfl (by decide),
   (loadProgress_spec 3599999
      { emptyStore with item := some (.json (.snapshot
          { currentIndex := 3, score := 2, trialLog := [], timestamp := 0 })) }).2.2.2.2.2.2
      _ rfl (by decide)⟩

/-! ### C9 -/

theorem savedStore_access (now : Int) (gs : GameState) (ls : LocalStorage) :
    (savedStore now gs ls).accessDenied = ls.accessDenied := by
  unfold savedStore
  split <;> rfl

theorem sessionScore_le (trials : List Trial) (subs : List (Item × Item × Int)) :
    ∀ i, sessionScore trials i subs ≤ subs.length := by
  induction subs with
  | nil => intro i; simp [sessionScore]
  | cons s ss ih =>
    intro i
    have h := ih (i + 1)
    simp only [sessionScore, List.length_cons]
    cases trials[i]? with
    | none => simp only []; omega
    | some t =>
      simp only []
      split <;> omega

theorem fire_submit_two (cfg : Config) (trials : List Trial) (w : World) (p0 p1 : Item)
    (now : Int) (T : Trial) (hc : w.dom.checkBtnHidden = false)
    (hT : trials[w.gs.currentIndex]? = some T) :
    ∃ w1 : World, Event.fire cfg trials w (.submit [p0, p1] now) = w1 ∧
      w1.gs = judgedState w.gs T p0 p1 ∧ w1.dom.nextBtnHidden = false ∧
      w1.storage.accessDenied = w.storage.accessDenied := by
  obtain ⟨dom, -, hd2, -, -, -, -, heq⟩ := checkAnswer_judged cfg trials now w T p0 p1 [] hT
  refine ⟨_, rfl, ?_, ?_, ?_⟩
  · simp only [Event.fire, hc, Bool.false_eq_true, if_false, heq, Result.state]
  · simp only [Event.fire, hc, Bool.false_eq_true, if_false, heq, Result.state, hd2]
  · simp only [Event.fire, hc, Bool.false_eq_true, if_false, heq, Result.state,
      savedStore_access]

theorem session_run (cfg : Config) (trials : List Trial)
    (hlen : cfg.TOTAL_TRIALS ≤ trials.length) :
    ∀ (subs : List (Item × Item × Int)) (w : World), subs ≠ [] →
      w.gs.currentIndex + subs.length = cfg.TOTAL_TRIALS →
      w.dom.checkBtnHidden = false → w.storage.accessDenied = false →
      (run cfg trials w (session subs)).gs.currentIndex = cfg.TOTAL_TRIALS ∧
      (run cfg trials w (session subs)).gs.score =
        w.gs.score + sessionScore trials w.gs.currentIndex subs ∧
      (run cfg trials w (session subs)).gs.trialLog =
        w.gs.trialLog ++ sessionLog trials w.gs.currentIndex subs ∧
      (run cfg trials w (session subs)).dom.gameContainerHidden = true ∧
      (run cfg trials w (session subs)).dom.resultScreenHidden = false ∧
      (run cfg trials w (session subs)).dom.finalPct =
        some (percentage (w.gs.score + sessionScore trials w.gs.currentIndex subs)
          cfg.TOTAL_TRIALS) ∧
      (run cfg trials w (session subs)).storage.item = none := by
  intro subs
  induction subs with
  | nil => intro w h; exact absurd rfl h
  | cons s ss ih =>
    intro w _ hsum hc hst
    simp only [List.length_cons] at hsum
    have hi : w.gs.currentIndex < trials.length := by omega
    have hT : trials[w.gs.currentIndex]? = some (trials[w.gs.currentIndex]) :=
      List.getElem?_eq_getElem hi
    obtain ⟨w1, e1, g1, n1, a1⟩ := fire_submit_two cfg trials w s.1 s.2.1 s.2.2 _ hc hT
    have hrun : run cfg trials w (session (s :: ss)) =
        run cfg trials
          (Event.fire cfg trials (Event.fire cfg trials w (.submit [s.1, s.2.1] s.2.2))
            .advance) (session ss) := rfl
    have e2 : Event.fire cfg trials w1 .advance = (Game.nextTrial cfg w1).state := by
      simp only [Event.fire, n1, Bool.false_eq_true, if_false]
    have hidx : w1.gs.currentIndex = w.gs.currentIndex := by rw [g1]; rfl
    rw [hrun, e1, e2]
    cases ss with
    | nil =>
      have hlast : ¬ w1.gs.currentIndex + 1 < cfg.TOTAL_TRIALS := by
        simp only [List.length_nil] at hsum; omega
      rw [nextTrial_results cfg w1 hlast, showResults_ok cfg _ (by rw [← hst, ← a1])]
      simp only [List.length_nil] at hsum
      simp only [session, run, List.foldl_nil, Result.state, sessionScore, sessionLog, hT, g1,
        judgedState, Nat.add_zero, List.append_nil]
      refine ⟨?_, ?_, ?_, ?_, ?_, ?_, ?_⟩ <;>
        first | trivial | rfl | omega | (split <;> rfl)
    | cons s1 rest =>
      have hlt : w1.gs.currentIndex + 1 < cfg.TOTAL_TRIALS := by
        simp only [List.length_cons] at hsum; omega
      rw [nextTrial_load cfg w1 hlt]
      have h := ih (Game.loadTrial cfg
        { w1 with gs := { w1.gs with currentIndex := w1.gs.currentIndex + 1 } })
        (by simp)
        (by simp only [Game.loadTrial, List.length_cons] at hsum ⊢; omega) rfl
        (by simp only [Game.loadTrial]; rw [a1]; exact hst)
      simp only [Result.state]
      obtain ⟨h1, h2, h3, h4, h5, h6, h7⟩ := h
      have hsc : w1.gs.score + sessionScore trials (w1.gs.currentIndex + 1) (s1 :: rest) =
          w.gs.score + sessionScore trials w.gs.currentIndex (s :: s1 :: rest) := by
        rw [hidx, g1]
        conv_rhs => rw [sessionScore]
        simp only [hT, judgedState]
        split <;> omega
      refine ⟨h1, ?_, ?_, h4, h5, ?_, h7⟩
      · rw [h2]
        exact hsc
      · rw [h3]
        simp only [Game.loadTrial, hidx]
        rw [g1]
        conv_rhs => rw [sessionLog]
        simp only [hT, judgedState, List.append_assoc]
      · rw [h6]
        simp only [Game.loadTrial]
        rw [hsc]

theorem sessionLog_getElem (trials : List Trial) (subs : List (Item × Item × Int)) :
    ∀ (j i : Nat) (s : Item × Item × Int) (T : Trial),
      j + subs.length ≤ trials.length → subs[i]? = some s → trials[j + i]? = some T →
      (sessionLog trials j subs)[i]? = some (Game.outcome (j + i) T s.1 s.2.1) := by
  induction subs with
  | nil => intro j i s T _ hs; simp at hs
  | cons s0 ss ih =>
    intro j i s T hle hs hT
    simp only [List.length_cons] at hle
    have hj : j < trials.length := by omega
    have hTj : trials[j]? = some (trials[j]) := List.getElem?_eq_getElem hj
    cases i with
    | zero =>
      simp only [List.getElem?_cons_zero, Option.some.injEq] at hs
      simp only [Nat.add_zero] at hT
      rw [hTj] at hT
      simp only [Option.some.injEq] at hT
      subst hs
      simp [sessionLog, hTj, hT]
    | succ i =>
      simp only [List.getElem?_cons_succ] at hs
      have hT2 : trials[j + 1 + i]? = some T := by
        rw [← hT]; congr 1; omega
      have := ih (j + 1) i s T (by omega) hs hT2
      simp only [sessionLog, hTj, List.singleton_append, List.getElem?_cons_succ]
      rw [this]
      congr 2
      omega

theorem sessionLog_length (trials : List Trial) (subs : List (Item × Item × Int)) :
    ∀ j, j + subs.length ≤ trials.length → (sessionLog trials j subs).length = subs.length := by
  induction subs with
  | nil => intro j _; simp [sessionLog]
  | cons s0 ss ih =>
    intro j hle
    simp only [List.length_cons] at hle
    have hj : j < trials.length := by omega
    have hTj : trials[j]? = some (trials[j]) := List.getElem?_eq_getElem hj
    simp [sessionLog, hTj, ih (j + 1) (by omega)]

/-- C9, refuted as stated, at forty trials with 23 right answers: the session
ends completed with score 23 and prints 57, while 100 * 23 / 40 is 57.5 and
rounds to 58. In binary64 23 / 40 * 100 is 57.49999999999999. -/
theorem forty_trials_print_57 :
    (run config40 catalog40 (UI.startApp config40 false 0 freshPage).state
      (session answers40)).gs.score = 23 ∧
    (run config40 catalog40 (UI.startApp config40 false 0 freshPage).state
      (session answers40)).dom.finalPct = some (some 57) ∧
    roundHalfUp (100 * 23) 40 = 58 := by
  have h := session_run config40 catalog40 (by decide) answers40
    (UI.startApp config40 false 0 freshPage).state (by decide) (by decide) (by decide)
    (by decide)
  have hk : sessionScore catalog40
      (UI.startApp config40 false 0 freshPage).state.gs.currentIndex answers40 = 23 := by
    decide
  have h0 : (UI.startApp config40 false 0 freshPage).state.gs.score = 0 := by decide
  obtain ⟨-, h2, -, -, -, h6, -⟩ := h
  rw [hk, h0] at h2 h6
  refine ⟨h2, ?_, by decide⟩
  rw [h6]
  decide

/-- C9, amended: for every `TOTAL_TRIALS = n ≥ 1`, a catalog covering it, a
store that can be accessed and every sequence of n two-item submissions, a
session started fresh and driven by Check then Next for each trial in turn
ends completed (index n, result screen shown) with score k, the number of
correct submissions; a log of exactly n entries whose i-th entry has trial
number i and status "Pass" exactly when the i-th submission was correct; no
stored item; and the percentage printed is the binary64 value of
k / n * 100 rounded by `toFixed(0)`, which for n below 40 is 100 * k / n
rounded to the nearest integer. -/
theorem full_session (cfg : Config) (trials : List Trial) (confirmAnswer : Bool)
    (now : Int) (w0 : World) (subs : List (Item × Item × Int))
    (hn : subs.length = cfg.TOTAL_TRIALS) (hpos : 1 ≤ cfg.TOTAL_TRIALS)
    (hlen : cfg.TOTAL_TRIALS ≤ trials.length)
    (hfresh : w0.gs.currentIndex = 0 ∧ w0.gs.score = 0 ∧ w0.gs.trialLog = [])
    (hnew : GameState.loadProgress now w0.storage = .ok none ∨ confirmAnswer = false)
    (hstore : w0.storage.accessDenied = false) :
    (run cfg trials (UI.startApp cfg confirmAnswer now w0).state
      (session subs)).gs.currentIndex = cfg.TOTAL_TRIALS ∧
    (run cfg trials (UI.startApp cfg confirmAnswer now w0).state
      (session subs)).dom.resultScreenHidden = false ∧
    (run cfg trials (UI.startApp cfg confirmAnswer now w0).state
      (session subs)).dom.gameContainerHidden = true ∧
    (run cfg trials (UI.startApp cfg confirmAnswer now w0).state
      (session subs)).gs.score = sessionScore trials 0 subs ∧
    (run cfg trials (UI.startApp cfg confirmAnswer now w0).state
      (session subs)).gs.trialLog.length = cfg.TOTAL_TRIALS ∧
    (∀ i s, subs[i]? = some s → ∃ T o, trials[i]? = some T ∧
      (run cfg trials (UI.startApp cfg confirmAnswer now w0).state
        (session subs)).gs.trialLog[i]? = some o ∧
      o.trialNum = i + 1 ∧
      (o.status = "Pass" ↔ Game.isCorrect T s.1 s.2.1 = true)) ∧
    (run cfg trials (UI.startApp cfg confirmAnswer now w0).state
      (session subs)).dom.finalPct =
        some (percentage (sessionScore trials 0 subs) cfg.TOTAL_TRIALS) ∧
    (cfg.TOTAL_TRIALS < 40 →
      (run cfg trials (UI.startApp cfg confirmAnswer now w0).state
        (session subs)).dom.finalPct =
          some (some (roundHalfUp (100 * sessionScore trials 0 subs) cfg.TOTAL_TRIALS))) ∧
    (run cfg trials (UI.startApp cfg confirmAnswer now w0).state
      (session subs)).storage.item = none := by
  rw [startApp_fresh cfg confirmAnswer now w0 hnew]
  obtain ⟨f1, f2, f3⟩ := hfresh
  have hne : subs ≠ [] := by
    intro h
    rw [h] at hn
    simp at hn
    omega
  obtain ⟨h1, h2, h3, h4, h5, h6, h7⟩ :=
    session_run cfg trials hlen subs (Game.loadTrial cfg w0) hne
      (by simp only [Game.loadTrial, f1]; omega) rfl hstore
  have e_idx : (Game.loadTrial cfg w0).gs.currentIndex = 0 := f1
  have e_sc : (Game.loadTrial cfg w0).gs.score = 0 := f2
  have e_log : (Game.loadTrial cfg w0).gs.trialLog = [] := f3
  rw [e_idx, e_sc, Nat.zero_add] at h2 h6
  rw [e_idx, e_log, List.nil_append] at h3
  simp only [Result.state]
  refine ⟨h1, h5, h4, h2, ?_, ?_, h6, ?_, h7⟩
  · rw [h3, sessionLog_length trials subs 0 (by omega), hn]
  · intro i s hs
    have hi : i < subs.length := by
      by_contra hcon
      rw [List.getElem?_eq_none (by omega)] at hs
      simp at hs
    have hit : i < trials.length := by omega
    have hT : trials[i]? = some (trials[i]) := List.getElem?_eq_getElem hit
    refine ⟨trials[i], Game.outcome i (trials[i]) s.1 s.2.1, hT, ?_, rfl,
      outcome_status_pass _ _ _ _⟩
    rw [h3]
    have := sessionLog_getElem trials subs 0 i s (trials[i]) (by omega) hs
      (by rw [Nat.zero_add]; exact hT)
    simpa using this
  · intro hcap
    rw [h6, percentage_rounds_below_40 cfg.TOTAL_TRIALS hcap _
      (by rw [← hn]; exact sessionScore_le trials subs 0) (by omega)]

/-- C9 amended, on the scenario of the specification: two trials, the first
answered correctly and the second not, give score 1, percentage 50 and the
log trial 1 Pass, trial 2 Fail. -/
theorem full_session_witness :
    (run { CONFIG with TOTAL_TRIALS := 2 } (TRIALS_DATA.take 2)
      (UI.startApp { CONFIG with TOTAL_TRIALS := 2 } false 0 freshPage).state
      (session
        [({ type := "who", text := "The dog" }, { type := "doing", text := "is smelling" }, 10),
         ({ type := "who", text := "The boy" }, { type := "doing", text := "is running" }, 20)])
      ).gs.score = 1 ∧
    (run { CONFIG with TOTAL_TRIALS := 2 } (TRIALS_DATA.take 2)
      (UI.startApp { CONFIG with TOTAL_TRIALS := 2 } false 0 freshPage).state
      (session
        [({ type := "who", text := "The dog" }, { type := "doing", text := "is smelling" }, 10),
         ({ type := "who", text := "The boy" }, { type := "doing", text := "is running" }, 20)])
      ).dom.finalPct = some (some 50) ∧
    (run { CONFIG with TOTAL_TRIALS := 2 } (TRIALS_DATA.take 2)
      (UI.startApp { CONFIG with TOTAL_TRIALS := 2 } false 0 freshPage).state
      (session
        [({ type := "who", text := "The dog" }, { type := "doing", text := "is smelling" }, 10),
         ({ type := "who", text := "The boy" }, { type := "doing", text := "is running" }, 20)])
      ).gs.trialLog.map (fun o => (o.trialNum, o.status)) = [(1, "Pass"), (2, "Fail")] := by
  have h := full_session { CONFIG with TOTAL_TRIALS := 2 } (TRIALS_DATA.take 2) false 0 freshPage
    [({ type := "who", text := "The dog" }, { type := "doing", text := "is smelling" }, 10),
     ({ type := "who", text := "The boy" }, { type := "doing", text := "is running" }, 20)]
    (by decide) (by decide) (by decide) ⟨rfl, rfl, rfl⟩ (Or.inr rfl) (by decide)
  refine ⟨?_, ?_, by decide⟩
  · rw [h.2.2.2.1]; decide
  · rw [h.2.2.2.2.2.2.2.1 (by decide)]; decide

/-! ### C10 -/

/-- C10, refuted as stated: restarting the muted mid-session leaves a page
whose mute flag is off, although it was on. -/
theorem restart_does_not_keep_mute :
    mutedMidSession.gs.isMuted = true ∧
    (UI.restart blankDOM mutedMidSession).state.gs.isMuted = false := by
  decide

/-- C10, amended: with a store that can be accessed, `UI.restart` returns
from every state with index 0, score 0, an empty log and no stored item.
`GameState.reset` (and `clearProgress`, which does not touch `GameState`)
leaves the mute flag as it was, but the page reload that ends `UI.restart`
builds `GameState` anew, so afterwards the mute flag is off. -/
theorem restart_resets (html : DOM) (w : World) (hstore : w.storage.accessDenied = false) :
    UI.restart html w = .returned (UI.restart html w).state ∧
    (UI.restart html w).state.gs.currentIndex = 0 ∧
    (UI.restart html w).state.gs.score = 0 ∧
    (UI.restart html w).state.gs.trialLog = [] ∧
    (UI.restart html w).state.storage.item = none ∧
    (GameState.reset w.gs).isMuted = w.gs.isMuted ∧
    (UI.restart html w).state.gs.isMuted = false := by
  unfold UI.restart GameState.clearProgress LocalStorage.removeItem
  simp [hstore, Result.state, Location.reload, GameState.initial, GameState.reset]

/-- C10 amended, on the muted mid-session. -/
theorem restart_resets_witness :
    mutedMidSession.storage.accessDenied = false ∧
    (UI.restart blankDOM mutedMidSession).state.gs.currentIndex = 0 ∧
    (UI.restart blankDOM mutedMidSession).state.storage.item = none :=
  ⟨by decide,
   (restart_resets blankDOM mutedMidSession (by decide)).2.1,
   (restart_resets blankDOM mutedMidSession (by decide)).2.2.2.2.1⟩

/-! ### C11 -/

theorem nextTrial_gs (cfg : Config) (w : World) :
    (Game.nextTrial cfg w).state.gs =
      { w.gs with currentIndex := w.gs.currentIndex + 1 } := by
  by_cases hlt : w.gs.currentIndex + 1 < cfg.TOTAL_TRIALS
  · rw [nextTrial_load cfg w hlt]
    rfl
  · rw [nextTrial_results cfg w hlt, (showResults_state cfg _).1]

theorem fire_judged (cfg : Config) (trials : List Trial) (w : World) (e : Event)
    (h : Judged cfg w) : Judged cfg (Event.fire cfg trials w e) := by
  cases e with
  | submit placed now =>
    unfold Event.fire
    cases hc : w.dom.checkBtnHidden with
    | true => simpa using h
    | false =>
      simp only [Bool.false_eq_true, if_false]
      match placed with
      | [] =>
        rw [checkAnswer_short cfg trials [] now w (by simp)]
        exact h
      | [p] =>
        rw [checkAnswer_short cfg trials [p] now w (by simp)]
        exact h
      | p0 :: p1 :: rest =>
        cases hT : trials[w.gs.currentIndex]? with
        | none =>
          rw [checkAnswer_undefined cfg trials now w p0 p1 rest hT]
          exact h
        | some T =>
          obtain ⟨dom, -, -, -, -, -, -, heq⟩ :=
            checkAnswer_judged cfg trials now w T p0 p1 rest hT
          rw [heq]
          intro _ _
          exact ⟨Game.outcome w.gs.currentIndex T p0 p1,
            by simp [Result.state, judgedState], rfl⟩
  | advance =>
    unfold Event.fire
    cases hn : w.dom.nextBtnHidden with
    | true => simpa using h
    | false =>
      simp only [Bool.false_eq_true, if_false]
      by_cases hlt : w.gs.currentIndex + 1 < cfg.TOTAL_TRIALS
      · rw [nextTrial_load cfg w hlt]
        intro hh
        simp [Result.state, Game.loadTrial] at hh
      · intro _ hidx
        rw [nextTrial_gs] at hidx
        exact absurd hidx hlt

theorem run_judged (cfg : Config) (trials : List Trial) (es : List Event) :
    ∀ w : World, Judged cfg w → Judged cfg (run cfg trials w es) := by
  induction es with
  | nil => intro w h; exact h
  | cons e es ih => intro w h; exact ih _ (fire_judged cfg trials w e h)

/-- C11, refuted as stated: on the shipped game just started (index 0, in
progress, nothing judged) `Game.nextTrial` moves the index to 1, and in a
completed session (index 10) it moves the index to 11. -/
theorem nextTrial_does_not_reject :
    (Game.loadTrial CONFIG freshPage).gs.currentIndex < CONFIG.TOTAL_TRIALS ∧
    (Game.loadTrial CONFIG freshPage).gs.trialLog = [] ∧
    (Game.nextTrial CONFIG (Game.loadTrial CONFIG freshPage)).state.gs.currentIndex = 1 ∧
    (Game.nextTrial CONFIG
      { freshPage with gs := { freshPage.gs with currentIndex := 10 } }).state.gs.currentIndex
        = 11 := by
  decide

/-- C11, amended: `Game.nextTrial` has no guard; in every state, in progress
or completed, it leaves `GameState` with the index incremented and score,
log and mute flag as they were. What keeps an advance from happening before
the trial is judged is the page: in every state reached from a start
(`loadTrial`) by clicks, if the session is in progress and the log has no
outcome for the trial on show, the Next button is hidden and a click on it
leaves the whole state unchanged. -/
theorem advance_needs_judged_trial (cfg : Config) (trials : List Trial) (w0 : World)
    (es : List Event) :
    (∀ w : World, (Game.nextTrial cfg w).state.gs =
      { w.gs with currentIndex := w.gs.currentIndex + 1 }) ∧
    ((run cfg trials (Game.loadTrial cfg w0) es).gs.currentIndex < cfg.TOTAL_TRIALS →
      (∀ o ∈ (run cfg trials (Game.loadTrial cfg w0) es).gs.trialLog,
        o.trialNum ≠ (run cfg trials (Game.loadTrial cfg w0) es).gs.currentIndex + 1) →
      (run cfg trials (Game.loadTrial cfg w0) es).dom.nextBtnHidden = true ∧
      Event.fire cfg trials (run cfg trials (Game.loadTrial cfg w0) es) .advance =
        run cfg trials (Game.loadTrial cfg w0) es) := by
  refine ⟨nextTrial_gs cfg, ?_⟩
  intro hprog hno
  have h0 : Judged cfg (Game.loadTrial cfg w0) := by
    intro hh
    simp [Game.loadTrial] at hh
  have hj := run_judged cfg trials es _ h0
  have hn : (run cfg trials (Game.loadTrial cfg w0) es).dom.nextBtnHidden = true := by
    cases hb : (run cfg trials (Game.loadTrial cfg w0) es).dom.nextBtnHidden with
    | true => rfl
    | false =>
      obtain ⟨o, ho, hnum⟩ := hj hb hprog
      exact absurd hnum (hno o ho)
  refine ⟨hn, ?_⟩
  simp only [Event.fire, hn, if_true]

/-- C11 amended, on the shipped game after a single symbol was submitted:
Next is hidden and clicking it changes nothing. -/
theorem advance_needs_judged_trial_witness :
    (run CONFIG TRIALS_DATA (Game.loadTrial CONFIG freshPage)
      [.submit [{ type := "who", text := "The dog" }] 1]).dom.nextBtnHidden = true ∧
    Event.fire CONFIG TRIALS_DATA
      (run CONFIG TRIALS_DATA (Game.loadTrial CONFIG freshPage)
        [.submit [{ type := "who", text := "The dog" }] 1]) .advance =
      run CONFIG TRIALS_DATA (Game.loadTrial CONFIG freshPage)
        [.submit [{ type := "who", text := "The dog" }] 1] :=
  (advance_needs_judged_trial CONFIG TRIALS_DATA freshPage
    [.submit [{ type := "who", text := "The dog" }] 1]).2 (by decide) (by decide)

/-! ### C12 -/

/-- C12, evaluated on a store the browser refuses access to. `saveProgress`
swallows the failure, so `checkAnswer` on the last trial returns. But
`clearProgress` passes the SecurityError on: `Game.nextTrial` then ends in
that exception inside `showResults` with the index already at 10, the game
still on show and the result screen still hidden, and `UI.restart` ends in
it before `location.reload()` is reached. -/
theorem clearProgress_failure_propagates :
    GameState.saveProgress 0 lastTrialDenied.gs deniedStore = .ok deniedStore ∧
    (Game.checkAnswer CONFIG TRIALS_DATA
      [{ type := "who", text := "The girl" }, { type := "doing", text := "is reading" }]
      0 lastTrialDenied).failed = false ∧
    GameState.clearProgress deniedStore = .error Exn.SecurityError ∧
    Game.nextTrial CONFIG lastTrialDenied =
      .threw Exn.SecurityError
        { lastTrialDenied with gs := { lastTrialDenied.gs with currentIndex := 10 } } ∧
    (Game.nextTrial CONFIG lastTrialDenied).state.dom.resultScreenHidden = true ∧
    (Game.nextTrial CONFIG lastTrialDenied).state.dom.gameContainerHidden = false ∧
    UI.restart blankDOM lastTrialDenied =
      .threw Exn.SecurityError { lastTrialDenied with gs := lastTrialDenied.gs.reset } :=
  ⟨rfl, rfl, rfl, rfl, rfl, rfl, rfl⟩

/-! ### C13 -/

theorem run_coherent (cfg : Config) (trials : List Trial) (es : List Event)
    (hlen : cfg.TOTAL_TRIALS ≤ trials.length) :
    ∀ w : World, Coherent cfg w → Coherent cfg (run cfg trials w es) := by
  induction es with
  | nil => intro w h; exact h
  | cons e es ih => intro w h; exact ih _ (fire_step cfg trials w e hlen h).1

theorem checkAnswer_returns (cfg : Config) (trials : List Trial) (placed : List Item)
    (now : Int) (w : World) (hi : w.gs.currentIndex < trials.length) :
    (Game.checkAnswer cfg trials placed now w).failed = false := by
  match placed with
  | [] => rw [checkAnswer_short cfg trials [] now w (by simp)]; rfl
  | [p] => rw [checkAnswer_short cfg trials [p] now w (by simp)]; rfl
  | p0 :: p1 :: rest =>
    obtain ⟨dom, -, -, -, -, -, -, heq⟩ :=
      checkAnswer_judged cfg trials now w _ p0 p1 rest (List.getElem?_eq_getElem hi)
    rw [heq]
    rfl

theorem loadTrialRest_lookAhead (cfg : Config) (trials : List Trial) (i j : Nat)
    (hlen : cfg.TOTAL_TRIALS ≤ trials.length) (hi : i < cfg.TOTAL_TRIALS) :
    ∃ v : TrialView, Game.loadTrialRest cfg trials i j = .ok v ∧
      (v.lookAhead ≠ none ↔ j + 1 < cfg.TOTAL_TRIALS) ∧
      (j + 1 < cfg.TOTAL_TRIALS → ∃ T : Trial, v.lookAhead = some (some T)) := by
  have hit : i < trials.length := lt_of_lt_of_le hi hlen
  unfold Game.loadTrialRest
  rw [List.getElem?_eq_getElem hit]
  refine ⟨_, rfl, ?_, ?_⟩
  · by_cases hj : j + 1 < cfg.TOTAL_TRIALS <;> simp [hj]
  · intro hj
    have hjt : j + 1 < trials.length := lt_of_lt_of_le hj hlen
    exact ⟨trials[j + 1], by simp [hj, List.getElem?_eq_getElem hjt]⟩

/-- C13: the shipped catalog has exactly `CONFIG.TOTAL_TRIALS` = 10 entries.
So at every index `i` below `TOTAL_TRIALS` the lookup `TRIALS_DATA[i]` gives
a trial: `loadTrial` called there runs through, `checkAnswer` there never
ends in an exception, and whenever Check is offered in a session started
below `TOTAL_TRIALS` the index is below `TOTAL_TRIALS`. The look-ahead
`TRIALS_DATA[j + 1]` is made exactly when `j + 1 < TOTAL_TRIALS`, and then
it gives a trial too. -/
theorem catalog_covers_trials :
    TRIALS_DATA.length = CONFIG.TOTAL_TRIALS ∧ CONFIG.TOTAL_TRIALS = 10 ∧
    (∀ i, i < CONFIG.TOTAL_TRIALS → ∃ T : Trial, TRIALS_DATA[i]? = some T) ∧
    (∀ i j, i < CONFIG.TOTAL_TRIALS →
      ∃ v : TrialView, Game.loadTrialRest CONFIG TRIALS_DATA i j = .ok v ∧
        (v.lookAhead ≠ none ↔ j + 1 < CONFIG.TOTAL_TRIALS) ∧
        (j + 1 < CONFIG.TOTAL_TRIALS → ∃ T : Trial, v.lookAhead = some (some T))) ∧
    (∀ (w : World) (placed : List Item) (now : Int),
      w.gs.currentIndex < CONFIG.TOTAL_TRIALS →
        (Game.checkAnswer CONFIG TRIALS_DATA placed now w).failed = false) ∧
    (∀ (w0 : World) (es : List Event), w0.gs.currentIndex < CONFIG.TOTAL_TRIALS →
      (run CONFIG TRIALS_DATA (Game.loadTrial CONFIG w0) es).dom.checkBtnHidden = false →
        (run CONFIG TRIALS_DATA (Game.loadTrial CONFIG w0) es).gs.currentIndex
          < CONFIG.TOTAL_TRIALS) := by
  have hlen : CONFIG.TOTAL_TRIALS ≤ TRIALS_DATA.length := by decide
  refine ⟨by decide, by decide, ?_, ?_, ?_, ?_⟩
  · intro i hi
    exact ⟨_, List.getElem?_eq_getElem (lt_of_lt_of_le hi hlen)⟩
  · intro i j hi
    exact loadTrialRest_lookAhead CONFIG TRIALS_DATA i j hlen hi
  · intro w placed now hi
    exact checkAnswer_returns CONFIG TRIALS_DATA placed now w (lt_of_lt_of_le hi hlen)
  · intro w0 es hi hc
    have h0 : Coherent CONFIG (Game.loadTrial CONFIG w0) := fun _ => ⟨rfl, hi⟩
    exact (run_coherent CONFIG TRIALS_DATA es hlen _ h0 hc).2

/-- C13 at the last index: the tenth trial is there and no look-ahead is
made from it. -/
theorem catalog_covers_trials_witness :
    (∃ T : Trial, TRIALS_DATA[9]? = some T) ∧
    ∃ v : TrialView, Game.loadTrialRest CONFIG TRIALS_DATA 9 9 = .ok v ∧
      (v.lookAhead ≠ none ↔ 9 + 1 < CONFIG.TOTAL_TRIALS) ∧
      (9 + 1 < CONFIG.TOTAL_TRIALS → ∃ T : Trial, v.lookAhead = some (some T)) :=
  ⟨catalog_covers_trials.2.2.1 9 (by decide),
   catalog_covers_trials.2.2.2.1 9 9 (by decide)⟩

end AAC
